import Mathlib

/-!
clap: command line option declaration and help rendering

A shallow embedding of `src/clap.go`.  Go strings are modelled as lists of
runes (`Str`), Go's `len` as the UTF-8 byte count (`len`), Go's `int` as `Int`.
The integers of the program are lengths of strings held in memory and sums of a
few of them, so no wraparound arises.

The state of the program is a `World`: the package variable `argHelp`, the
names registered with the `flag` package together with the pointers bound to
them, and the heap of the cells allocated by the declaration functions.  A
pointer has a dynamic type and an address, so that the descriptor, the handle
returned to the caller and the flag bindings share one cell.  `os.Args[0]` is
the argument `prog`; text written to standard output is returned as a value.

Two parts of Go's library are taken as parameters: `ext`, the part of the
formatter of `fmt` that is not written out in `doPrintf`, and `upper`, the rune
table `unicode.ToUpper` behind `strings.ToUpper`.  The theorems hold for every
`ext` and every `upper`, hence for Go's.
-/

namespace Clap

/-- Go string, as the list of its runes. -/
abbrev Str := List Char

/-- Go's builtin `len` on a string: the number of bytes of its UTF-8 form. -/
def len : Str → Nat
  | [] => 0
  | c :: cs => c.utf8Size + len cs

/-- Go's `strings.ToUpper`: maps every rune through `upper`, which stands for
Go's table `unicode.ToUpper`. -/
def ToUpper (upper : Char → Char) (s : Str) : Str := s.map upper

/-- The rows of `unicode.ToUpper` that the worked examples below need: ASCII
letters, U+0131 (dotless i, upper case `I`) and U+017F (long s, upper case
`S`).  It is passed for `upper` only to evaluate the code at names spelled with
ASCII runes and these two letters, where it agrees with Go's table; it is not a
model of the whole table. -/
def exampleUpper (c : Char) : Char :=
  if 97 ≤ c.toNat ∧ c.toNat ≤ 122 then Char.ofNat (c.toNat - 32)
  else if c.toNat = 0x131 then 'I'
  else if c.toNat = 0x17F then 'S'
  else c

/-- Go's `strings.Repeat(" ", n)`: panics (`none`) on a negative count. -/
def Repeat (n : Int) : Option Str :=
  if n < 0 then none else some (List.replicate n.toNat ' ')

/-- Flag characters that may follow `%` in a Go format string. -/
def isFlag (c : Char) : Bool :=
  c = '#' || c = '0' || c = '+' || c = '-' || c = ' '

/-- Characters that start an argument index, a width or a precision. -/
def isWidthStart (c : Char) : Bool :=
  c.isDigit || c = '.' || c = '[' || c = '*'

/-- Verbs that format a string operand in a way not written out here
(`%q`, `%x`, `%X`, `%T`, `%w`). -/
def isOtherVerb (c : Char) : Bool :=
  c = 'q' || c = 'x' || c = 'X' || c = 'T' || c = 'w'

/-- Go's `%!(EXTRA type=value, ...)` list for unused string operands. -/
def extraArgs : List Str → Str
  | [] => []
  | [a] => "string=".toList ++ a
  | a :: b :: as => "string=".toList ++ a ++ ", ".toList ++ extraArgs (b :: as)

/-- What `doPrintf` appends after the format is used up: nothing when every
operand was consumed, `%!(EXTRA ...)` otherwise. -/
def extraTail : List Str → Str
  | [] => []
  | a :: as => "%!(EXTRA ".toList ++ extraArgs (a :: as) ++ ")".toList

/-- The formatting loop `doPrintf` of Go's `fmt` on string operands.  The first
argument is `none` while copying literal text and `some fl` inside a directive
whose flag characters read so far are `fl`.
Written out: literal text, `%%`, `%s` and `%v`, a missing operand
(`%!c(MISSING)`), a verb that is wrong for a string (`%!c(string=...)`), a
format ending inside a directive (`%!(NOVERB)`) and unused operands
(`%!(EXTRA ...)`).  A directive with an argument index, a width, a precision,
one of the verbs of `isOtherVerb`, or flags in front of a verb that consumes an
operand is handed, from its `%` on and together with the operands not yet
consumed, to `ext`, which stands for the rest of Go's formatter. -/
def doPrintf (ext : Str → List Str → Str) : Option Str → Str → List Str → Str
  | none, [], args => extraTail args
  | none, c :: fs, args =>
    if c = '%' then doPrintf ext (some []) fs args
    else c :: doPrintf ext none fs args
  | some _, [], args => "%!(NOVERB)".toList ++ extraTail args
  | some fl, v :: tl, args =>
    if isFlag v then doPrintf ext (some (fl ++ [v])) tl args
    else if isWidthStart v then ext ('%' :: fl ++ v :: tl) args
    else if v = '%' then '%' :: doPrintf ext none tl args
    else
      match args with
      | [] => "%!".toList ++ v :: "(MISSING)".toList ++ doPrintf ext none tl []
      | a :: as =>
        if fl ≠ [] ∨ isOtherVerb v then ext ('%' :: fl ++ v :: tl) args
        else if v = 's' ∨ v = 'v' then a ++ doPrintf ext none tl as
        else "%!".toList ++ v :: "(string=".toList ++ a ++ ")".toList
               ++ doPrintf ext none tl as

/-- Go's `fmt.Sprintf` on string operands. -/
def Sprintf (ext : Str → List Str → Str) (format : Str) (args : List Str) : Str :=
  doPrintf ext none format args

/-- A formatter used where the rest of Go's formatter is never reached. -/
def noExt : Str → List Str → Str := fun _ _ => []

/-- Go constant `argString`. -/
def argString : Int := 0
/-- Go constant `argInt`. -/
def argInt : Int := 1
/-- Go constant `argBool`. -/
def argBool : Int := 2

/-- A pointer to a cell allocated by `new`: its dynamic type (`*string`,
`*int` or `*bool`) and the address of the cell.  This is what the
`interface{}` field `Value` holds, what a declaration returns and what the
`flag` package binds to a name. -/
inductive Ptr where
  | str (addr : Nat)
  | int (addr : Nat)
  | bool (addr : Nat)
  deriving DecidableEq, Repr

/-- The address a pointer points to. -/
def Ptr.addr : Ptr → Nat
  | Ptr.str a => a
  | Ptr.int a => a
  | Ptr.bool a => a

/-- Go struct `argumentHelp`. -/
structure argumentHelp where
  ArgType : Int
  ArgLen : Int
  ShortName : Str
  LongName : Str
  HelpText : Str
  Required : Bool
  Value : Ptr
  deriving DecidableEq, Repr

/-- The cells allocated so far: the content of the string, integer and boolean
cell at every address, and the next free address. -/
structure Heap where
  strs : Nat → Str
  ints : Nat → Int
  bools : Nat → Bool
  next : Nat

/-- Assignment `*p = v` through a `*string` with address `addr`; the `flag`
package does it when it parses an option bound to the cell. -/
def Heap.setStr (h : Heap) (addr : Nat) (v : Str) : Heap :=
  { h with strs := Function.update h.strs addr v }

/-- Assignment `*p = v` through a `*int`. -/
def Heap.setInt (h : Heap) (addr : Nat) (v : Int) : Heap :=
  { h with ints := Function.update h.ints addr v }

/-- Assignment `*p = v` through a `*bool`. -/
def Heap.setBool (h : Heap) (addr : Nat) (v : Bool) : Heap :=
  { h with bools := Function.update h.bools addr v }

/-- The state of the program: the package variable `argHelp`, the flags
registered with the `flag` package (name and bound pointer, in the order of
registration), and the heap. -/
structure World where
  argHelp : List argumentHelp
  formal : List (Str × Ptr)
  heap : Heap

/-- The state at program start: nothing declared, nothing allocated. -/
def World.init : World :=
  { argHelp := [], formal := [],
    heap := { strs := fun _ => [], ints := fun _ => 0, bools := fun _ => false, next := 0 } }

/-- The registration `FlagSet.Var` of the `flag` package, reached through
`flag.StringVar`, `flag.IntVar` and `flag.BoolVar`: it panics (`none`) on a
name that begins with `-`, contains `=` or is registered already, and
otherwise binds the name to the pointer. -/
def flagVar (formal : List (Str × Ptr)) (value : Ptr) (name : Str) : Option (List (Str × Ptr)) :=
  if name.head? = some '-' then none
  else if '=' ∈ name then none
  else if name ∈ formal.map Prod.fst then none
  else some (formal ++ [(name, value)])

/-- Result of a call of a declaration function: the state after the call and
the handle returned, `none` when the call panicked in the `flag` package. -/
structure Declared where
  world : World
  handle : Option Ptr

/-- Function `String` of the package: declares a string option.  `new(string)`
takes the next free address; each `flag.StringVar` stores the default in the
cell and registers one name; then the descriptor is appended. -/
def StringOpt (w : World) (shortName longName defaultValue helpText : Str)
    (required : Bool) : Declared :=
  let result : Ptr := Ptr.str w.heap.next
  let heap1 : Heap := { (w.heap.setStr w.heap.next defaultValue) with next := w.heap.next + 1 }
  match flagVar w.formal result shortName with
  | none => { world := { w with heap := heap1 }, handle := none }
  | some formal1 =>
    match flagVar formal1 result longName with
    | none => { world := { w with formal := formal1, heap := heap1 }, handle := none }
    | some formal2 =>
      { world :=
          { argHelp := w.argHelp ++
              [{ ArgType := argString, ArgLen := len shortName + 2 * len longName,
                 ShortName := shortName, LongName := longName, HelpText := helpText,
                 Required := required, Value := result }],
            formal := formal2, heap := heap1 },
        handle := some result }

/-- Function `Int` of the package: declares an integer option. -/
def IntOpt (w : World) (shortName longName : Str) (defaultValue : Int)
    (helpText : Str) (required : Bool) : Declared :=
  let result : Ptr := Ptr.int w.heap.next
  let heap1 : Heap := { (w.heap.setInt w.heap.next defaultValue) with next := w.heap.next + 1 }
  match flagVar w.formal result shortName with
  | none => { world := { w with heap := heap1 }, handle := none }
  | some formal1 =>
    match flagVar formal1 result longName with
    | none => { world := { w with formal := formal1, heap := heap1 }, handle := none }
    | some formal2 =>
      { world :=
          { argHelp := w.argHelp ++
              [{ ArgType := argInt, ArgLen := len shortName + 2 * len longName,
                 ShortName := shortName, LongName := longName, HelpText := helpText,
                 Required := required, Value := result }],
            formal := formal2, heap := heap1 },
        handle := some result }

/-- Function `Bool` of the package: declares a boolean option. -/
def BoolOpt (w : World) (shortName longName : Str) (defaultValue : Bool)
    (helpText : Str) (required : Bool) : Declared :=
  let result : Ptr := Ptr.bool w.heap.next
  let heap1 : Heap := { (w.heap.setBool w.heap.next defaultValue) with next := w.heap.next + 1 }
  match flagVar w.formal result shortName with
  | none => { world := { w with heap := heap1 }, handle := none }
  | some formal1 =>
    match flagVar formal1 result longName with
    | none => { world := { w with formal := formal1, heap := heap1 }, handle := none }
    | some formal2 =>
      { world :=
          { argHelp := w.argHelp ++
              [{ ArgType := argBool, ArgLen := len shortName + len longName,
                 ShortName := shortName, LongName := longName, HelpText := helpText,
                 Required := required, Value := result }],
            formal := formal2, heap := heap1 },
        handle := some result }

/-- The closure `terminalFmt` of `argumentHelp.String`. -/
def terminalFmt (ext : Str → List Str → Str) (a : argumentHelp) (maxLen : Int) : Option Str :=
  if a.ArgType = argString ∨ a.ArgType = argInt then
    (Repeat (maxLen - a.ArgLen + 4)).map fun pad =>
      Sprintf ext "  \x1b[01;38m-%%s, --%%s\x1b[00m <%%s>%s%%s\n".toList [pad]
  else if a.ArgType = argBool then
    (Repeat (maxLen - a.ArgLen + 7)).map fun pad =>
      Sprintf ext "  \x1b[01;38m-%%s, --%%s\x1b[00m%s%%s\n".toList [pad]
  else some []

/-- The closure `nonTerminalFmt` of `argumentHelp.String`. -/
def nonTerminalFmt (ext : Str → List Str → Str) (a : argumentHelp) (maxLen : Int) : Option Str :=
  if a.ArgType = argString ∨ a.ArgType = argInt then
    (Repeat (maxLen - a.ArgLen + 4)).map fun pad =>
      Sprintf ext "  -%%s, --%%s <%%s>%s%%s\n".toList [pad]
  else if a.ArgType = argBool then
    (Repeat (maxLen - a.ArgLen + 7)).map fun pad =>
      Sprintf ext "  -%%s, --%%s%s%%s\n".toList [pad]
  else some []

/-- Method `argumentHelp.String`: one option line; `none` when
`strings.Repeat` panics. -/
def argumentHelp.String (ext : Str → List Str → Str) (upper : Char → Char)
    (a : argumentHelp) (isTerminal : Bool) (maxLen : Int) : Option Str :=
  (if isTerminal then terminalFmt ext a maxLen else nonTerminalFmt ext a maxLen).map
    fun fmtStr =>
      if a.ArgType = argString ∨ a.ArgType = argInt then
        Sprintf ext fmtStr [a.ShortName, a.LongName, ToUpper upper a.LongName, a.HelpText]
      else if a.ArgType = argBool then
        Sprintf ext fmtStr [a.ShortName, a.LongName, a.HelpText]
      else []

/-- Function `errorHelp`: the message for missing required arguments. -/
def errorHelp (ext : Str → List Str → Str) (upper : Char → Char) (argHelp : List argumentHelp) (prog : Str)
    (isTerminal : Bool) : Str :=
  let fmtStr0 : Str :=
    if !isTerminal then "error: the following arguments are not provided:\n".toList
    else "\x1b[01;31merror:\x1b[00m the following arguments are not provided:\n".toList
  let fmtStr1 : Str := argHelp.foldl (fun fmtStr arg =>
    if arg.Required then
      let argStr : Str :=
        if !isTerminal then "  --%s <%s>\n".toList
        else "  \x1b[02;32m--%s <%s>\x1b[00m\n".toList
      Sprintf ext "%s%s".toList
        [fmtStr, Sprintf ext argStr [arg.LongName, ToUpper upper arg.LongName]]
    else fmtStr) fmtStr0
  let usageHelp0 : Str :=
    if !isTerminal then "Usage: %s".toList
    else "\x1b[04m\x1b[01;38mUsage:\x1b[00m \x1b[01;38m%s\x1b[00m".toList
  let usageHelp : Str := argHelp.foldl (fun usageHelp arg =>
    if !arg.Required then usageHelp
    else
      let argHelp1 : Str :=
        if !isTerminal then "--%s <%s>".toList
        else "\x1b[01;38m--%s\x1b[00m <%s>".toList
      Sprintf ext "%s %s".toList
        [Sprintf ext usageHelp [prog],
         Sprintf ext argHelp1 [arg.LongName, ToUpper upper arg.LongName]]) usageHelp0
  let fmtStr2 : Str := Sprintf ext "%s\n%s\n".toList [fmtStr1, usageHelp]
  let helpTip : Str :=
    if !isTerminal then "For more information, try \x27--help\x27.".toList
    else "For more information, try \x27\x1b[01;38m--help\x1b[00m\x27.".toList
  Sprintf ext "%s\n%s\n".toList [fmtStr2, helpTip]

/-- Function `usageHeader`: the usage line and the `Options:` heading. -/
def usageHeader (ext : Str → List Str → Str) (upper : Char → Char) (argHelp : List argumentHelp) (prog : Str)
    (isTerminal : Bool) : Str :=
  let header0 : Str :=
    if !isTerminal then "Usage: %s [OPTIONS]".toList
    else "\x1b[04m\x1b[01;38mUsage:\x1b[00m \x1b[01;38m%s\x1b[00m [OPTIONS]".toList
  let header : Str := argHelp.foldl (fun header arg =>
    if arg.Required then
      let fmtStr : Str :=
        if !isTerminal then "%s --%s <%s>".toList
        else "%s \x1b[01;38m--%s\x1b[00m <%s>".toList
      Sprintf ext fmtStr [header, arg.LongName, ToUpper upper arg.LongName]
    else header) header0
  let optHdr : Str :=
    if !isTerminal then "Options:".toList
    else "\x1b[04m\x1b[01;38mOptions:\x1b[00m".toList
  Sprintf ext "%s\n\n%s".toList [Sprintf ext header [prog], optHdr]


/-- How a call of `Parse` ends. -/
inductive Outcome where
  | returned
  | exited (status : Int)
  | panicked
  deriving DecidableEq, Repr

/-- State after the validation loop of `Parse`: how it ended, the text written
to standard output, and the state of the program (registry, flag bindings and
cells). -/
structure ParseResult where
  outcome : Outcome
  stdout : Str
  world : World

/-- The loop of `Parse` over the descriptors still to check, in state `w`.  The
type assertion `arg.Value.(*string)` panics on a pointer that is not a
`*string`; otherwise the cell is read through the pointer. -/
def parseLoop (ext : Str → List Str → Str) (upper : Char → Char) (w : World) (prog : Str)
    (isTerminal : Bool) : List argumentHelp → ParseResult
  | [] => { outcome := Outcome.returned, stdout := [], world := w }
  | arg :: rest =>
    if !arg.Required then parseLoop ext upper w prog isTerminal rest
    else if arg.ArgType = argBool then parseLoop ext upper w prog isTerminal rest
    else
      match arg.Value with
      | Ptr.str addr =>
        if len (w.heap.strs addr) = 0 then
          { outcome := Outcome.exited (-1),
            stdout := Sprintf ext (errorHelp ext upper w.argHelp prog isTerminal) [],
            world := w }
        else parseLoop ext upper w prog isTerminal rest
      | _ => { outcome := Outcome.panicked, stdout := [], world := w }

/-- Function `Parse` after `flag.Parse()` has filled the cells: the check of
the required arguments. -/
def Parse (ext : Str → List Str → Str) (upper : Char → Char) (w : World) (prog : Str)
    (isTerminal : Bool) : ParseResult :=
  parseLoop ext upper w prog isTerminal w.argHelp

/-- The first loop of the `flag.Usage` callback: the largest `ArgLen`. -/
def maxLength (argHelp : List argumentHelp) : Int :=
  argHelp.foldl (fun m a => if a.ArgLen > m then a.ArgLen else m) 0

/-- The second loop of the `flag.Usage` callback: prints each option line with
`fmt.Printf(line)`; `none` when rendering a line panics. -/
def usageLines (ext : Str → List Str → Str) (upper : Char → Char) (isTerminal : Bool)
    (maxLen : Int) : List argumentHelp → Option Str
  | [] => some []
  | arg :: rest =>
    match arg.String ext upper isTerminal maxLen with
    | none => none
    | some line =>
      (usageLines ext upper isTerminal maxLen rest).map fun out => Sprintf ext line [] ++ out

/-- The `flag.Usage` callback installed by `init`: the text it writes to
standard output; `none` when it panics. -/
def Usage (ext : Str → List Str → Str) (upper : Char → Char) (argHelp : List argumentHelp)
    (prog : Str) (isTerminal : Bool) : Option Str :=
  (usageLines ext upper isTerminal (maxLength argHelp) argHelp).map fun out =>
    Sprintf ext "%s\n".toList [usageHeader ext upper argHelp prog isTerminal] ++ out

/-- A call of a function of the package that assigns to no package variable and
declares nothing, in state `w`: its result and the state after the call, which
is `w`.  `errorHelp`, `usageHeader`, `argumentHelp.String` and the `flag.Usage`
callback are such functions: they read `argHelp` in `range` loops, and the
`argHelp :=` in the second loop of `errorHelp` declares a local string. -/
def readOnlyCall {α : Type} (f : List argumentHelp → α) (w : World) : α × World :=
  (f w.argHelp, w)

/-- Spec side of the validation: a required descriptor of String kind whose
bound value has length zero. -/
def missingString (w : World) (a : argumentHelp) : Prop :=
  a.Required = true ∧ a.ArgType = argString ∧
    ∃ addr, a.Value = Ptr.str addr ∧ len (w.heap.strs addr) = 0

/-- Spec side of the validation: every required value-taking (non-Boolean)
descriptor is of String kind and is bound to a string cell. -/
def requiredAreStrings (w : World) : Prop :=
  ∀ a ∈ w.argHelp, a.Required = true → a.ArgType ≠ argBool →
    a.ArgType = argString ∧ ∃ addr, a.Value = Ptr.str addr

/-- State of the example: after `Bool("v", "verbose", false, "verbose output",
false)` and `String("o", "output", "", "output path", true)`, and after
`flag.Parse` has stored `out.txt` in the cell of `--output`. -/
def worldVerboseOutput : World :=
  let w := (StringOpt
    (BoolOpt World.init "v".toList "verbose".toList false "verbose output".toList false).world
    "o".toList "output".toList [] "output path".toList true).world
  { w with heap := w.heap.setStr 1 "out.txt".toList }

/-- State after `Int("n", "num", 0, "a number", true)`. -/
def worldRequiredInt : World :=
  (IntOpt World.init "n".toList "num".toList 0 "a number".toList true).world

/-- State after `String("o", "output", "", "output path", true)` and
`String("n", "name", "", "user name", true)`, and after `flag.Parse` has
stored `bob` in the cell of `--name`; the cell of `--output` is empty. -/
def worldOutputName : World :=
  let w := (StringOpt
    (StringOpt World.init "o".toList "output".toList [] "output path".toList true).world
    "n".toList "name".toList [] "user name".toList true).world
  { w with heap := w.heap.setStr 1 "bob".toList }

/-- State after `String("i", "input", "", "input path", true)` and
`String("o", "output", "", "output path", true)`, both cells left empty. -/
def worldInputOutput : World :=
  (StringOpt
    (StringOpt World.init "i".toList "input".toList [] "input path".toList true).world
    "o".toList "output".toList [] "output path".toList true).world

/-- State of the example: after `String("n", "name", "", "user name", true)`,
the cell left empty. -/
def worldName : World :=
  (StringOpt World.init "n".toList "name".toList [] "user name".toList true).world

/-- State after `Bool("v", "verbose", false, "verbose output", false)` and
`String("w", "ılık", "", "warm start", false)`; the long name of the second is
spelled with U+0131. -/
def worldWarm : World :=
  (StringOpt
    (BoolOpt World.init "v".toList "verbose".toList false "verbose output".toList false).world
    "w".toList "ılık".toList [] "warm start".toList false).world

/-- State after `String("r", "rate%", "", "sampling rate", true)`. -/
def worldRate : World :=
  (StringOpt World.init "r".toList "rate%".toList [] "sampling rate".toList true).world

/-- State after `Bool("f", "full", false, "use 100% of the cores", false)`. -/
def worldFull : World :=
  (BoolOpt World.init "f".toList "full".toList false "use 100% of the cores".toList false).world

/-- State after `Bool("v", "verbose", false, "verbose output", true)` and
`String("o", "output", "", "output path", true)`, with no option given on the
command line: both cells hold their defaults. -/
def worldRequiredBool : World :=
  (StringOpt
    (BoolOpt World.init "v".toList "verbose".toList false "verbose output".toList true).world
    "o".toList "output".toList [] "output path".toList true).world

/-- Spec side: the line `  --LONG <UPPER(LONG)>` of a descriptor, with its
newline. -/
def optionLine (upper : Char → Char) (a : argumentHelp) : Str :=
  "  --".toList ++ a.LongName ++ " <".toList ++ ToUpper upper a.LongName ++ ">\n".toList

/-- Spec side: the option lines of all required descriptors, in declaration
order. -/
def requiredLines (upper : Char → Char) : List argumentHelp → Str
  | [] => []
  | a :: rest => (if a.Required then optionLine upper a else []) ++ requiredLines upper rest

/-- The banner of the error message in plain mode. -/
def errorBanner : Str := "error: the following arguments are not provided:\n".toList

/-- The help tip closing the error message in plain mode. -/
def helpTipLine : Str := "For more information, try \x27--help\x27.\n".toList

/-- The usage line that `errorHelp` builds in its second loop, in plain mode. -/
def errorUsage (ext : Str → List Str → Str) (upper : Char → Char) (prog : Str)
    (argHelp : List argumentHelp) : Str :=
  argHelp.foldl (fun usageHelp arg =>
    if !arg.Required then usageHelp
    else
      Sprintf ext "%s %s".toList
        [Sprintf ext usageHelp [prog],
         Sprintf ext "--%s <%s>".toList [arg.LongName, ToUpper upper arg.LongName]])
    "Usage: %s".toList

/-- Spec side: the text of the required options in a usage line, ` --LONG
<UPPER(LONG)>` for each required descriptor in declaration order. -/
def requiredUsage (upper : Char → Char) : List argumentHelp → Str
  | [] => []
  | a :: rest =>
    (if a.Required then " --".toList ++ a.LongName ++ " <".toList
        ++ ToUpper upper a.LongName ++ ">".toList else []) ++ requiredUsage upper rest

/-- The escape character U+001B. -/
def escChar : Char := '\x1b'

/-- Removes every ANSI escape sequence: from an escape character followed by
`[` through the next `m`.  The flag says whether the text read is inside such a
sequence. -/
def stripAnsiAux : Bool → Str → Str
  | _, [] => []
  | true, c :: cs => if c = 'm' then stripAnsiAux false cs else stripAnsiAux true cs
  | false, c :: cs =>
    if c = escChar ∧ cs.head? = some '[' then stripAnsiAux true cs
    else c :: stripAnsiAux false cs

/-- Removes every ANSI escape sequence (`ESC [ ... m`) from a text. -/
def stripAnsi (s : Str) : Str := stripAnsiAux false s

/-- A call of one of the declaration functions `String`, `Int`, `Bool`, with
its arguments. -/
inductive Decl where
  | string (shortName longName defaultValue helpText : Str) (required : Bool)
  | int (shortName longName : Str) (defaultValue : Int) (helpText : Str) (required : Bool)
  | bool (shortName longName : Str) (defaultValue : Bool) (helpText : Str) (required : Bool)
  deriving DecidableEq, Repr

/-- One declaration call in state `w`. -/
def declare (w : World) : Decl → Declared
  | Decl.string s l d h r => StringOpt w s l d h r
  | Decl.int s l d h r => IntOpt w s l d h r
  | Decl.bool s l d h r => BoolOpt w s l d h r

/-- The state after a sequence of declaration calls, made in order; a call that
panics is taken as recovered, the calls after it are made in the state it
left. -/
def declareAll (w : World) : List Decl → World
  | [] => w
  | d :: ds => declareAll (declare w d).world ds

/-- Whether every call of a sequence of declarations, made in order from state
`w`, returns. -/
def allReturn (w : World) : List Decl → Bool
  | [] => true
  | d :: ds => (declare w d).handle.isSome && allReturn (declare w d).world ds

/-- Spec side: the descriptor a declaration call creates when its cell has
address `addr`: kind, names, help text and required flag as given, width
`len(short) + 2*len(long)` for String and Int and `len(short) + len(long)` for
Bool, bound to the cell. -/
def Decl.descriptor (addr : Nat) : Decl → argumentHelp
  | Decl.string s l _ h r =>
    { ArgType := argString, ArgLen := len s + 2 * len l, ShortName := s, LongName := l,
      HelpText := h, Required := r, Value := Ptr.str addr }
  | Decl.int s l _ h r =>
    { ArgType := argInt, ArgLen := len s + 2 * len l, ShortName := s, LongName := l,
      HelpText := h, Required := r, Value := Ptr.int addr }
  | Decl.bool s l _ h r =>
    { ArgType := argBool, ArgLen := len s + len l, ShortName := s, LongName := l,
      HelpText := h, Required := r, Value := Ptr.bool addr }

/-- Spec side: the descriptors created by a sequence of declarations whose
cells take the addresses `addr`, `addr + 1`, ... in order. -/
def descriptorsFrom (addr : Nat) : List Decl → List argumentHelp
  | [] => []
  | d :: ds => d.descriptor addr :: descriptorsFrom (addr + 1) ds

/-- Spec side: the two names of a declaration can be registered: neither
begins with `-` or contains `=`, neither is registered yet, and they differ. -/
def namesFree (formal : List (Str × Ptr)) (shortName longName : Str) : Prop :=
  shortName.head? ≠ some '-' ∧ '=' ∉ shortName ∧ shortName ∉ formal.map Prod.fst ∧
  longName.head? ≠ some '-' ∧ '=' ∉ longName ∧ longName ∉ formal.map Prod.fst ∧
  longName ≠ shortName

/-! ## The formatter -/

theorem doPrintf_text (ext : Str → List Str → Str) (s t : Str) (args : List Str)
    (h : '%' ∉ s) : doPrintf ext none (s ++ t) args = s ++ doPrintf ext none t args := by
  induction s with
  | nil => rfl
  | cons c cs ih =>
    have hc : c ≠ '%' := fun e => h (by simp [e])
    have hcs : '%' ∉ cs := fun e => h (by simp [e])
    simp [doPrintf, hc, ih hcs]

theorem doPrintf_s (ext : Str → List Str → Str) (t a : Str) (as : List Str) :
    doPrintf ext none ('%' :: 's' :: t) (a :: as) = a ++ doPrintf ext none t as := by
  simp [doPrintf, isFlag, isWidthStart, isOtherVerb]

theorem Sprintf_cat (ext : Str → List Str → Str) (a b : Str) :
    Sprintf ext "%s%s".toList [a, b] = a ++ b := by
  simp [Sprintf, doPrintf, isFlag, isWidthStart, isOtherVerb, extraTail]

theorem Sprintf_two_lines (ext : Str → List Str → Str) (a b : Str) :
    Sprintf ext "%s\n%s\n".toList [a, b] = a ++ '\n' :: (b ++ ['\n']) := by
  simp [Sprintf, doPrintf, isFlag, isWidthStart, isOtherVerb, extraTail]

theorem Sprintf_errLine (ext : Str → List Str → Str) (a b : Str) :
    Sprintf ext "  --%s <%s>\n".toList [a, b]
      = "  --".toList ++ a ++ " <".toList ++ b ++ ">\n".toList := by
  simp [Sprintf, doPrintf, isFlag, isWidthStart, isOtherVerb, extraTail]


/-! ## Validation in `Parse` -/

theorem parseLoop_world (ext : Str → List Str → Str) (upper : Char → Char) (w : World)
    (prog : Str) (isTerminal : Bool) (rest : List argumentHelp) :
    (parseLoop ext upper w prog isTerminal rest).world = w := by
  induction rest with
  | nil => rfl
  | cons a rest ih =>
    unfold parseLoop
    split
    · exact ih
    · split
      · exact ih
      · split
        · split
          · rfl
          · exact ih
        · rfl

theorem parseLoop_missing (ext : Str → List Str → Str) (upper : Char → Char) (w : World)
    (prog : Str) (isTerminal : Bool) (rest : List argumentHelp)
    (H : ∀ a ∈ rest, a.Required = true → a.ArgType ≠ argBool →
      a.ArgType = argString ∧ ∃ addr, a.Value = Ptr.str addr)
    (hm : ∃ a ∈ rest, missingString w a) :
    parseLoop ext upper w prog isTerminal rest =
      { outcome := Outcome.exited (-1),
        stdout := Sprintf ext (errorHelp ext upper w.argHelp prog isTerminal) [],
        world := w } := by
  induction rest with
  | nil => obtain ⟨a, ha, _⟩ := hm; simp at ha
  | cons b rest ih =>
    have Hrest : ∀ a ∈ rest, a.Required = true → a.ArgType ≠ argBool →
        a.ArgType = argString ∧ ∃ addr, a.Value = Ptr.str addr :=
      fun a ha => H a (List.mem_cons_of_mem _ ha)
    by_cases hb : missingString w b
    · obtain ⟨hr, ht, addr, hv, hl⟩ := hb
      have hnb : b.ArgType ≠ argBool := by rw [ht]; decide
      simp [parseLoop, hr, hnb, hv, hl]
    · have hm2 : ∃ a ∈ rest, missingString w a := by
        obtain ⟨a, ha, hma⟩ := hm
        rcases List.mem_cons.1 ha with e | e
        · exact absurd (e ▸ hma) hb
        · exact ⟨a, e, hma⟩
      unfold parseLoop
      split
      · exact ih Hrest hm2
      · rename_i hr
        split
        · exact ih Hrest hm2
        · rename_i hnb
          have hr2 : b.Required = true := by simpa using hr
          obtain ⟨ht, addr, hv⟩ := H b (List.mem_cons_self _ _) hr2 hnb
          simp only [hv]
          split
          · rename_i hl
            exact absurd ⟨hr2, ht, addr, hv, hl⟩ hb
          · exact ih Hrest hm2

theorem parseLoop_complete (ext : Str → List Str → Str) (upper : Char → Char) (w : World)
    (prog : Str) (isTerminal : Bool) (rest : List argumentHelp)
    (H : ∀ a ∈ rest, a.Required = true → a.ArgType ≠ argBool →
      a.ArgType = argString ∧ ∃ addr, a.Value = Ptr.str addr)
    (hm : ¬ ∃ a ∈ rest, missingString w a) :
    parseLoop ext upper w prog isTerminal rest =
      { outcome := Outcome.returned, stdout := [], world := w } := by
  induction rest with
  | nil => rfl
  | cons b rest ih =>
    have Hrest : ∀ a ∈ rest, a.Required = true → a.ArgType ≠ argBool →
        a.ArgType = argString ∧ ∃ addr, a.Value = Ptr.str addr :=
      fun a ha => H a (List.mem_cons_of_mem _ ha)
    have hm2 : ¬ ∃ a ∈ rest, missingString w a := fun ⟨a, ha, hma⟩ =>
      hm ⟨a, List.mem_cons_of_mem _ ha, hma⟩
    have hb : ¬ missingString w b := fun h => hm ⟨b, List.mem_cons_self _ _, h⟩
    unfold parseLoop
    split
    · exact ih Hrest hm2
    · rename_i hr
      split
      · exact ih Hrest hm2
      · rename_i hnb
        have hr2 : b.Required = true := by simpa using hr
        obtain ⟨ht, addr, hv⟩ := H b (List.mem_cons_self _ _) hr2 hnb
        simp only [hv]
        split
        · rename_i hl
          exact absurd ⟨hr2, ht, addr, hv, hl⟩ hb
        · exact ih Hrest hm2

/-- C1: over registries whose required value-taking options are all of String
kind, and for every content of the cells, the validation of `Parse` exits with
status -1 exactly when some required String descriptor has a bound value of
length zero, and then it has printed `errorHelp` through `fmt.Printf`;
otherwise it returns and has printed nothing; in both cases the registry and
every cell are as before. -/
theorem C1_parse_validation (ext : Str → List Str → Str) (upper : Char → Char) (w : World)
    (prog : Str) (isTerminal : Bool) (H : requiredAreStrings w) :
    ((Parse ext upper w prog isTerminal).outcome = Outcome.exited (-1)
        ↔ ∃ a ∈ w.argHelp, missingString w a) ∧
    ((∃ a ∈ w.argHelp, missingString w a) →
        (Parse ext upper w prog isTerminal).stdout
          = Sprintf ext (errorHelp ext upper w.argHelp prog isTerminal) []) ∧
    ((¬ ∃ a ∈ w.argHelp, missingString w a) →
        (Parse ext upper w prog isTerminal).outcome = Outcome.returned ∧
        (Parse ext upper w prog isTerminal).stdout = []) ∧
    (Parse ext upper w prog isTerminal).world = w := by
  refine ⟨⟨fun h => ?_, fun h => ?_⟩, fun h => ?_, fun h => ?_, ?_⟩
  · by_contra hn
    have := parseLoop_complete ext upper w prog isTerminal w.argHelp H hn
    unfold Parse at h
    rw [this] at h
    simp at h
  · unfold Parse
    rw [parseLoop_missing ext upper w prog isTerminal w.argHelp H h]
  · unfold Parse
    rw [parseLoop_missing ext upper w prog isTerminal w.argHelp H h]
  · unfold Parse
    rw [parseLoop_complete ext upper w prog isTerminal w.argHelp H h]
    exact ⟨rfl, rfl⟩
  · exact parseLoop_world ext upper w prog isTerminal w.argHelp

theorem worldVerboseOutput_argHelp :
    worldVerboseOutput.argHelp =
      [{ ArgType := argBool, ArgLen := 8, ShortName := "v".toList,
         LongName := "verbose".toList, HelpText := "verbose output".toList,
         Required := false, Value := Ptr.bool 0 },
       { ArgType := argString, ArgLen := 13, ShortName := "o".toList,
         LongName := "output".toList, HelpText := "output path".toList,
         Required := true, Value := Ptr.str 1 }] := by
  rfl

theorem worldVerboseOutput_strings : requiredAreStrings worldVerboseOutput := by
  intro a ha hr hb
  rw [worldVerboseOutput_argHelp] at ha
  simp only [List.mem_cons, List.mem_singleton, List.not_mem_nil, or_false] at ha
  rcases ha with e | e
  · subst e; simp at hr
  · subst e; exact ⟨rfl, _, rfl⟩

theorem worldVerboseOutput_none_missing :
    ¬ ∃ a ∈ worldVerboseOutput.argHelp, missingString worldVerboseOutput a := by
  rintro ⟨a, ha, hr, _, addr, hv, hl⟩
  rw [worldVerboseOutput_argHelp] at ha
  simp only [List.mem_cons, List.mem_singleton, List.not_mem_nil, or_false] at ha
  rcases ha with e | e
  · subst e; simp at hr
  · subst e
    simp only [Ptr.str.injEq] at hv
    subst hv
    revert hl
    decide

/-- Witness of C1: the state of the example (optional Bool `-v`, required
String `-o` bound to `out.txt`) meets the hypothesis, and `Parse` returns
without output and leaves the state as it was. -/
theorem C1_parse_validation_witness :
    requiredAreStrings worldVerboseOutput ∧
    worldVerboseOutput.heap.strs 1 = "out.txt".toList ∧
    worldVerboseOutput.heap.bools 0 = false ∧
    (Parse noExt exampleUpper worldVerboseOutput "prog".toList false).outcome
      = Outcome.returned ∧
    (Parse noExt exampleUpper worldVerboseOutput "prog".toList false).stdout = [] ∧
    (Parse noExt exampleUpper worldVerboseOutput "prog".toList false).world
      = worldVerboseOutput :=
  ⟨worldVerboseOutput_strings, rfl, rfl,
   ((C1_parse_validation noExt exampleUpper worldVerboseOutput "prog".toList false
      worldVerboseOutput_strings).2.2.1 worldVerboseOutput_none_missing).1,
   ((C1_parse_validation noExt exampleUpper worldVerboseOutput "prog".toList false
      worldVerboseOutput_strings).2.2.1 worldVerboseOutput_none_missing).2,
   (C1_parse_validation noExt exampleUpper worldVerboseOutput "prog".toList false
      worldVerboseOutput_strings).2.2.2⟩

/-- C2: the state after `Int("n", "num", 0, "a number", true)` makes the
validation of `Parse` panic: the type assertion to `*string` fails on the
`*int` that `Int` stored in `Value`. -/
theorem C2_required_int_panics (ext : Str → List Str → Str) (upper : Char → Char) :
    worldRequiredInt.argHelp =
      [{ ArgType := argInt, ArgLen := 7, ShortName := "n".toList, LongName := "num".toList,
         HelpText := "a number".toList, Required := true, Value := Ptr.int 0 }] ∧
    worldRequiredInt.heap.ints 0 = 0 ∧
    (Parse ext upper worldRequiredInt "prog".toList false).outcome = Outcome.panicked ∧
    (Parse ext upper worldRequiredInt "prog".toList false).stdout = [] ∧
    (Parse ext upper worldRequiredInt "prog".toList false).world = worldRequiredInt := by
  refine ⟨by rfl, by rfl, by rfl, by rfl, by rfl⟩

/-! ## The error message -/

/-- C3: with required `--output` left empty and required `--name` bound to
`bob`, `errorHelp` lists both options under its banner, also the one that was
supplied. -/
theorem C3_errorHelp_lists_supplied (ext : Str → List Str → Str) :
    worldOutputName.argHelp =
      [{ ArgType := argString, ArgLen := 13, ShortName := "o".toList,
         LongName := "output".toList, HelpText := "output path".toList,
         Required := true, Value := Ptr.str 0 },
       { ArgType := argString, ArgLen := 9, ShortName := "n".toList,
         LongName := "name".toList, HelpText := "user name".toList,
         Required := true, Value := Ptr.str 1 }] ∧
    worldOutputName.heap.strs 0 = [] ∧
    worldOutputName.heap.strs 1 = "bob".toList ∧
    errorHelp ext exampleUpper worldOutputName.argHelp "prog".toList false =
      "error: the following arguments are not provided:\n  --output <OUTPUT>\n  --name <NAME>\n\nUsage: prog --output <OUTPUT>%!(EXTRA string=prog) --name <NAME>\n\nFor more information, try \x27--help\x27.\n".toList := by
  refine ⟨by rfl, by rfl, by rfl, by rfl⟩

/-- C4: with two required options the usage line of `errorHelp` carries the
formatter's `%!(EXTRA string=prog)` after the first option, while the first
line of `usageHeader` without ` [OPTIONS]` does not. -/
theorem C4_errorHelp_usage_line_extra (ext : Str → List Str → Str) :
    errorHelp ext exampleUpper worldInputOutput.argHelp "prog".toList false =
      "error: the following arguments are not provided:\n  --input <INPUT>\n  --output <OUTPUT>\n\nUsage: prog --input <INPUT>%!(EXTRA string=prog) --output <OUTPUT>\n\nFor more information, try \x27--help\x27.\n".toList ∧
    usageHeader ext exampleUpper worldInputOutput.argHelp "prog".toList false =
      "Usage: prog [OPTIONS] --input <INPUT> --output <OUTPUT>\n\nOptions:".toList := by
  constructor
  · rfl
  · rfl

theorem errorHelp_lines_foldl (ext : Str → List Str → Str) (upper : Char → Char)
    (argHelp : List argumentHelp) (acc : Str) :
    argHelp.foldl (fun fmtStr arg =>
      if arg.Required then
        Sprintf ext "%s%s".toList
          [fmtStr,
           Sprintf ext "  --%s <%s>\n".toList [arg.LongName, ToUpper upper arg.LongName]]
      else fmtStr) acc = acc ++ requiredLines upper argHelp := by
  induction argHelp generalizing acc with
  | nil => simp [requiredLines]
  | cons a rest ih =>
    rw [List.foldl_cons, ih]
    by_cases hr : a.Required = true
    · simp only [hr, if_true, requiredLines]
      rw [Sprintf_errLine, Sprintf_cat]
      simp [optionLine]
    · simp [hr, requiredLines]

theorem errorHelp_plain_shape (ext : Str → List Str → Str) (upper : Char → Char)
    (argHelp : List argumentHelp) (prog : Str) :
    ∃ usage : Str, errorHelp ext upper argHelp prog false =
      errorBanner ++ requiredLines upper argHelp
        ++ '\n' :: (usage ++ '\n' :: '\n' :: helpTipLine) := by
  refine ⟨errorUsage ext upper prog argHelp, ?_⟩
  simp only [errorHelp, Sprintf_two_lines, Bool.not_false, if_true]
  rw [errorHelp_lines_foldl]
  simp [errorBanner, helpTipLine, errorUsage]

theorem requiredLines_mem (upper : Char → Char) (argHelp : List argumentHelp)
    (a : argumentHelp) (ha : a ∈ argHelp) (hr : a.Required = true) :
    ∃ s t : Str, requiredLines upper argHelp = s ++ optionLine upper a ++ t := by
  induction argHelp with
  | nil => simp at ha
  | cons b rest ih =>
    rcases List.mem_cons.1 ha with e | e
    · subst e
      exact ⟨[], requiredLines upper rest, by simp [requiredLines, hr]⟩
    · obtain ⟨s, t, h⟩ := ih e
      exact ⟨(if b.Required then optionLine upper b else []) ++ s, t, by
        simp [requiredLines, h]⟩

/-- C5: in plain mode the text of `errorHelp` starts with the banner
`error: the following arguments are not provided:`, contains the line
`  --LONG <UPPER(LONG)>` of every required String option whose value is empty,
and ends with the tip `For more information, try '--help'.` and a newline;
`UPPER` is `strings.ToUpper` over whatever rune table `upper` Go has. -/
theorem C5_errorHelp_shape (ext : Str → List Str → Str) (upper : Char → Char) (w : World)
    (prog : Str) :
    (∃ t : Str, errorHelp ext upper w.argHelp prog false = errorBanner ++ t) ∧
    (∀ a ∈ w.argHelp, missingString w a →
      ∃ s t : Str, errorHelp ext upper w.argHelp prog false
        = s ++ ("  --".toList ++ a.LongName ++ " <".toList ++ ToUpper upper a.LongName
            ++ ">\n".toList) ++ t) ∧
    (∃ s : Str, errorHelp ext upper w.argHelp prog false = s ++ helpTipLine) := by
  obtain ⟨usage, h⟩ := errorHelp_plain_shape ext upper w.argHelp prog
  refine ⟨⟨_, by rw [h, List.append_assoc]⟩, fun a ha hm => ?_, ?_⟩
  · obtain ⟨s, t, hl⟩ := requiredLines_mem upper w.argHelp a ha hm.1
    refine ⟨errorBanner ++ s, t ++ '\n' :: (usage ++ '\n' :: '\n' :: helpTipLine), ?_⟩
    rw [h, hl]
    simp [optionLine]
  · refine ⟨errorBanner ++ requiredLines upper w.argHelp
      ++ '\n' :: (usage ++ ['\n', '\n']), ?_⟩
    rw [h]
    simp

/-- Witness of C5: in the state of the example (required String `-n`,
`--name`, left empty) the option is missing, and the error text contains the
line `  --name <NAME>` and ends with the help tip. -/
theorem C5_errorHelp_shape_witness :
    missingString worldName
      { ArgType := argString, ArgLen := 9, ShortName := "n".toList, LongName := "name".toList,
        HelpText := "user name".toList, Required := true, Value := Ptr.str 0 } ∧
    (∃ s t : Str, errorHelp noExt exampleUpper worldName.argHelp "prog".toList false
        = s ++ "  --name <NAME>\n".toList ++ t) ∧
    (∃ s : Str, errorHelp noExt exampleUpper worldName.argHelp "prog".toList false
        = s ++ helpTipLine) :=
  ⟨⟨rfl, rfl, 0, rfl, rfl⟩,
   (C5_errorHelp_shape noExt exampleUpper worldName "prog".toList).2.1
     { ArgType := argString, ArgLen := 9, ShortName := "n".toList, LongName := "name".toList,
       HelpText := "user name".toList, Required := true, Value := Ptr.str 0 }
     (List.mem_singleton.2 rfl) ⟨rfl, rfl, 0, rfl, rfl⟩,
   (C5_errorHelp_shape noExt exampleUpper worldName "prog".toList).2.2⟩

/-! ## Option lines -/

theorem replicate_no_percent (n : Nat) : '%' ∉ List.replicate n ' ' := by
  intro h
  have := List.eq_of_mem_replicate h
  revert this
  decide

theorem Sprintf_valueFmt (ext : Str → List Str → Str) (pad : Str) :
    Sprintf ext "  -%%s, --%%s <%%s>%s%%s\n".toList [pad]
      = "  -%s, --%s <%s>".toList ++ pad ++ "%s\n".toList := by
  simp [Sprintf, doPrintf, isFlag, isWidthStart, isOtherVerb, extraTail]

theorem Sprintf_boolFmt (ext : Str → List Str → Str) (pad : Str) :
    Sprintf ext "  -%%s, --%%s%s%%s\n".toList [pad]
      = "  -%s, --%s".toList ++ pad ++ "%s\n".toList := by
  simp [Sprintf, doPrintf, isFlag, isWidthStart, isOtherVerb, extraTail]

theorem Sprintf_valueLine (ext : Str → List Str → Str) (n : Nat) (s l u h : Str) :
    Sprintf ext ("  -%s, --%s <%s>".toList ++ List.replicate n ' ' ++ "%s\n".toList) [s, l, u, h]
      = "  -".toList ++ s ++ ", --".toList ++ l ++ " <".toList ++ u ++ ">".toList
          ++ List.replicate n ' ' ++ h ++ "\n".toList := by
  have hp := doPrintf_text ext (List.replicate n ' ') "%s\n".toList [h] (replicate_no_percent n)
  simp only [Sprintf] at *
  simp [doPrintf, isFlag, isWidthStart, isOtherVerb, extraTail] at hp ⊢
  rw [hp]

theorem Sprintf_boolLine (ext : Str → List Str → Str) (n : Nat) (s l h : Str) :
    Sprintf ext ("  -%s, --%s".toList ++ List.replicate n ' ' ++ "%s\n".toList) [s, l, h]
      = "  -".toList ++ s ++ ", --".toList ++ l
          ++ List.replicate n ' ' ++ h ++ "\n".toList := by
  have hp := doPrintf_text ext (List.replicate n ' ') "%s\n".toList [h] (replicate_no_percent n)
  simp only [Sprintf] at *
  simp [doPrintf, isFlag, isWidthStart, isOtherVerb, extraTail] at hp ⊢
  rw [hp]

theorem Repeat_nonneg (n : Int) (h : 0 ≤ n) : Repeat n = some (List.replicate n.toNat ' ') := by
  simp [Repeat, not_lt.2 h]

/-- C6: in plain mode, for `maxLen >= ArgLen`, a String or Integer descriptor
renders as `  -SHORT, --LONG <UPPER(LONG)>`, then `maxLen - ArgLen + 4` spaces,
the help text and a newline; a Boolean descriptor renders as `  -SHORT, --LONG`,
then `maxLen - ArgLen + 7` spaces, the help text and a newline; `UPPER` is
`strings.ToUpper` over whatever rune table `upper` Go has. -/
theorem C6_option_line_plain (ext : Str → List Str → Str) (upper : Char → Char)
    (a : argumentHelp) (maxLen : Int) (h : a.ArgLen ≤ maxLen) :
    ((a.ArgType = argString ∨ a.ArgType = argInt) →
      a.String ext upper false maxLen = some
        ("  -".toList ++ a.ShortName ++ ", --".toList ++ a.LongName ++ " <".toList
          ++ ToUpper upper a.LongName ++ ">".toList
          ++ List.replicate (maxLen - a.ArgLen + 4).toNat ' ' ++ a.HelpText ++ "\n".toList)) ∧
    (a.ArgType = argBool →
      a.String ext upper false maxLen = some
        ("  -".toList ++ a.ShortName ++ ", --".toList ++ a.LongName
          ++ List.replicate (maxLen - a.ArgLen + 7).toNat ' ' ++ a.HelpText ++ "\n".toList)) := by
  constructor
  · intro ht
    have h4 : 0 ≤ maxLen - a.ArgLen + 4 := by omega
    simp only [argumentHelp.String, nonTerminalFmt, if_pos ht, Repeat_nonneg _ h4,
      Option.map_some', Bool.false_eq_true, if_false]
    rw [Sprintf_valueFmt, Sprintf_valueLine]
  · intro ht
    have h7 : 0 ≤ maxLen - a.ArgLen + 7 := by omega
    have hn : ¬ (a.ArgType = argString ∨ a.ArgType = argInt) := by
      rw [ht]; decide
    simp only [argumentHelp.String, nonTerminalFmt, if_neg hn, if_pos ht, Repeat_nonneg _ h7,
      Option.map_some', Bool.false_eq_true, if_false]
    rw [Sprintf_boolFmt, Sprintf_boolLine]

/-- Witness of C6: the String option `-o`, `--output` (ArgLen 13) at
`maxLen = 13` renders with four spaces of padding. -/
theorem C6_option_line_plain_witness :
    ((13 : Int) ≤ 13) ∧
    argumentHelp.String noExt exampleUpper
      { ArgType := argString, ArgLen := 13, ShortName := "o".toList,
        LongName := "output".toList, HelpText := "output path".toList,
        Required := true, Value := Ptr.str 1 } false 13
      = some "  -o, --output <OUTPUT>    output path\n".toList :=
  ⟨le_refl _,
   (C6_option_line_plain noExt exampleUpper
      { ArgType := argString, ArgLen := 13, ShortName := "o".toList,
        LongName := "output".toList, HelpText := "output path".toList,
        Required := true, Value := Ptr.str 1 } 13 (le_refl _)).1 (Or.inl rfl)⟩

/-- C7: after `Bool("v", "verbose", ...)` and `String("w", "ılık", ...)` the
largest `ArgLen` is 13; the Boolean line has its help text at offset 27
(`maxLen + 14`), the String line at offset 25, because the upper-cased long
name `ILIK` is two bytes shorter than the long name. -/
theorem C7_help_offset_differs (ext : Str → List Str → Str) :
    maxLength worldWarm.argHelp = 13 ∧
    worldWarm.argHelp.map
        (fun a => a.String ext exampleUpper false (maxLength worldWarm.argHelp)) =
      [some ("  -v, --verbose            ".toList ++ "verbose output".toList ++ "\n".toList),
       some ("  -w, --ılık <ILIK>    ".toList ++ "warm start".toList ++ "\n".toList)] ∧
    worldWarm.argHelp.map (fun a => a.HelpText)
      = ["verbose output".toList, "warm start".toList] ∧
    len "  -v, --verbose            ".toList = 27 ∧
    len "  -w, --ılık <ILIK>    ".toList = 25 := by
  refine ⟨by decide, by rfl, by rfl, by rfl, by rfl⟩

/-! ## The usage header -/

theorem exampleUpper_percent (c : Char) (h : exampleUpper c = '%') : c = '%' := by
  unfold exampleUpper at h
  split at h
  · rename_i hc
    obtain ⟨n, hn⟩ : ∃ n, c.toNat = n := ⟨_, rfl⟩
    rw [hn] at hc h
    obtain ⟨h1, h2⟩ := hc
    exfalso
    interval_cases n <;> revert h <;> decide
  · split at h
    · exact absurd h (by decide)
    · split at h
      · exact absurd h (by decide)
      · exact h

theorem ToUpper_no_percent (upper : Char → Char) (hu : ∀ c, upper c = '%' → c = '%')
    (s : Str) (h : '%' ∉ s) : '%' ∉ ToUpper upper s := by
  intro hm
  obtain ⟨c, hc, e⟩ := List.mem_map.1 hm
  exact h (hu c e ▸ hc)

theorem requiredUsage_no_percent (upper : Char → Char) (hu : ∀ c, upper c = '%' → c = '%')
    (argHelp : List argumentHelp)
    (hl : ∀ a ∈ argHelp, '%' ∉ a.LongName) : '%' ∉ requiredUsage upper argHelp := by
  induction argHelp with
  | nil => simp [requiredUsage]
  | cons a rest ih =>
    have h1 := hl a (List.mem_cons_self _ _)
    have h2 := ToUpper_no_percent upper hu _ h1
    have h3 := ih (fun b hb => hl b (List.mem_cons_of_mem _ hb))
    by_cases hr : a.Required = true
    · simp [requiredUsage, hr, h1, h2, h3]
    · simp [requiredUsage, hr, h3]

theorem Sprintf_usageArg (ext : Str → List Str → Str) (h l u : Str) :
    Sprintf ext "%s --%s <%s>".toList [h, l, u]
      = h ++ " --".toList ++ l ++ " <".toList ++ u ++ ">".toList := by
  simp [Sprintf, doPrintf, isFlag, isWidthStart, isOtherVerb, extraTail]

theorem usageHeader_foldl (ext : Str → List Str → Str) (upper : Char → Char)
    (argHelp : List argumentHelp) (acc : Str) :
    argHelp.foldl (fun header arg =>
      if arg.Required then
        Sprintf ext "%s --%s <%s>".toList [header, arg.LongName, ToUpper upper arg.LongName]
      else header) acc = acc ++ requiredUsage upper argHelp := by
  induction argHelp generalizing acc with
  | nil => simp [requiredUsage]
  | cons a rest ih =>
    rw [List.foldl_cons, ih]
    by_cases hr : a.Required = true
    · simp only [hr, if_true, requiredUsage]
      rw [Sprintf_usageArg]
      simp
    · simp [hr, requiredUsage]

theorem Sprintf_header (ext : Str → List Str → Str) (prog r : Str) (hr : '%' ∉ r) :
    Sprintf ext ("Usage: %s [OPTIONS]".toList ++ r) [prog]
      = "Usage: ".toList ++ prog ++ " [OPTIONS]".toList ++ r := by
  have hp := doPrintf_text ext (" [OPTIONS]".toList ++ r) [] [] (by simp [hr])
  simp only [Sprintf] at *
  simp [doPrintf, isFlag, isWidthStart, isOtherVerb, extraTail] at hp ⊢
  exact hp

theorem Sprintf_headerOptions (ext : Str → List Str → Str) (a b : Str) :
    Sprintf ext "%s\n\n%s".toList [a, b] = a ++ "\n\n".toList ++ b := by
  simp [Sprintf, doPrintf, isFlag, isWidthStart, isOtherVerb, extraTail]

/-- C8: in plain mode, when no long name contains `%`, `usageHeader` is
`Usage: <program> [OPTIONS]`, then ` --LONG <UPPER(LONG)>` for every required
descriptor in declaration order and for no other, then a blank line and
`Options:`.  `UPPER` is `strings.ToUpper` over whatever rune table `upper` Go
has, of which only this is used: no rune other than `%` has `%` as its upper
case. -/
theorem C8_usageHeader_plain (ext : Str → List Str → Str) (upper : Char → Char)
    (argHelp : List argumentHelp) (prog : Str)
    (hu : ∀ c, upper c = '%' → c = '%')
    (hl : ∀ a ∈ argHelp, '%' ∉ a.LongName) :
    usageHeader ext upper argHelp prog false =
      "Usage: ".toList ++ prog ++ " [OPTIONS]".toList ++ requiredUsage upper argHelp
        ++ "\n\nOptions:".toList := by
  simp only [usageHeader, Bool.not_false, if_true]
  rw [usageHeader_foldl,
    Sprintf_header ext prog _ (requiredUsage_no_percent upper hu argHelp hl),
    Sprintf_headerOptions]
  simp

/-- Witness of C8: the registry with optional Bool `-v`, `--verbose` and
required String `-o`, `--output` has no `%` in its long names, and its header
names only `--output`. -/
theorem C8_usageHeader_plain_witness :
    (∀ c, exampleUpper c = '%' → c = '%') ∧
    (∀ a ∈ worldVerboseOutput.argHelp, '%' ∉ a.LongName) ∧
    usageHeader noExt exampleUpper worldVerboseOutput.argHelp "prog".toList false =
      "Usage: prog [OPTIONS] --output <OUTPUT>\n\nOptions:".toList :=
  ⟨exampleUpper_percent,
   by rw [worldVerboseOutput_argHelp]; decide,
   C8_usageHeader_plain noExt exampleUpper worldVerboseOutput.argHelp "prog".toList
     exampleUpper_percent (by rw [worldVerboseOutput_argHelp]; decide)⟩

/-! ## Terminal and plain rendering -/

/-- C9: for the registry after `String("r", "rate%", "", "sampling rate",
true)`, whose strings contain no escape character, `usageHeader` in terminal
mode with the ANSI escape sequences removed is not `usageHeader` in plain mode:
the `%` closing the long name is read as a directive, with the verb `<` in
plain mode and with the escape character as verb in terminal mode. -/
theorem C9_terminal_plain_differ (ext : Str → List Str → Str) :
    usageHeader ext exampleUpper worldRate.argHelp "prog".toList false =
      "Usage: prog [OPTIONS] --rate%!<(MISSING)RATE%!>(MISSING)\n\nOptions:".toList ∧
    usageHeader ext exampleUpper worldRate.argHelp "prog".toList true =
      "\x1b[04m\x1b[01;38mUsage:\x1b[00m \x1b[01;38mprog\x1b[00m [OPTIONS] \x1b[01;38m--rate%!\x1b(MISSING)[00m <RATE%!>(MISSING)\n\n\x1b[04m\x1b[01;38mOptions:\x1b[00m".toList ∧
    stripAnsi (usageHeader ext exampleUpper worldRate.argHelp "prog".toList true) =
      "Usage: prog [OPTIONS] --rate%!\x1b(MISSING)[00m <RATE%!>(MISSING)\n\nOptions:".toList ∧
    stripAnsi (usageHeader ext exampleUpper worldRate.argHelp "prog".toList true)
      ≠ usageHeader ext exampleUpper worldRate.argHelp "prog".toList false := by
  have h1 : usageHeader ext exampleUpper worldRate.argHelp "prog".toList false =
      "Usage: prog [OPTIONS] --rate%!<(MISSING)RATE%!>(MISSING)\n\nOptions:".toList := by rfl
  have h3 : stripAnsi (usageHeader ext exampleUpper worldRate.argHelp "prog".toList true) =
      "Usage: prog [OPTIONS] --rate%!\x1b(MISSING)[00m <RATE%!>(MISSING)\n\nOptions:".toList := by
    rfl
  refine ⟨h1, by rfl, h3, ?_⟩
  rw [h1, h3]
  intro h
  have h2 := congrArg (fun l : Str => l.get? 30) h
  revert h2
  decide

/-! ## The help callback -/

/-- C10: for the registry after `Bool("f", "full", false, "use 100% of the
cores", false)` the option line is `  -f, --full       use 100% of the cores`,
but the callback writes `use 100%!o(MISSING)f the cores` in its place: the line
is passed to `fmt.Printf` as the format. -/
theorem C10_usage_rewrites_percent (ext : Str → List Str → Str) :
    worldFull.argHelp.map
        (fun a => a.String ext exampleUpper false (maxLength worldFull.argHelp)) =
      [some "  -f, --full       use 100% of the cores\n".toList] ∧
    usageHeader ext exampleUpper worldFull.argHelp "prog".toList false
      = "Usage: prog [OPTIONS]\n\nOptions:".toList ∧
    Usage ext exampleUpper worldFull.argHelp "prog".toList false =
      some "Usage: prog [OPTIONS]\n\nOptions:\n  -f, --full       use 100%!o(MISSING)f the cores\n".toList := by
  refine ⟨by rfl, by rfl, by rfl⟩

/-! ## Required Boolean options -/

theorem parseLoop_ignores_bool (ext : Str → List Str → Str) (upper : Char → Char) (w : World)
    (prog : Str) (isTerminal : Bool) (rest : List argumentHelp) :
    parseLoop ext upper w prog isTerminal rest =
      parseLoop ext upper w prog isTerminal
        (rest.filter fun a => decide (a.ArgType ≠ argBool)) := by
  induction rest with
  | nil => rfl
  | cons a rest ih =>
    by_cases hb : a.ArgType = argBool
    · rw [List.filter_cons_of_neg (by simpa using hb), ← ih]
      by_cases hr : a.Required = true
      · simp [parseLoop, hr, hb]
      · simp [parseLoop, hr]
    · rw [List.filter_cons_of_pos (by simpa using hb)]
      unfold parseLoop
      rw [ih]

/-- C11: after `Bool("v", "verbose", false, "verbose output", true)` and
`String("o", "output", "", "output path", true)` with no option given, the
validation of `Parse` exits with status -1 because of `--output`, and the text
of `errorHelp` has the line `  --verbose <VERBOSE>` for the required Boolean
option. -/
theorem C11_errorHelp_lists_required_bool (ext : Str → List Str → Str) :
    (Parse ext exampleUpper worldRequiredBool "prog".toList false).outcome
      = Outcome.exited (-1) ∧
    errorHelp ext exampleUpper worldRequiredBool.argHelp "prog".toList false =
      "error: the following arguments are not provided:\n  --verbose <VERBOSE>\n  --output <OUTPUT>\n\nUsage: prog --verbose <VERBOSE>%!(EXTRA string=prog) --output <OUTPUT>\n\nFor more information, try \x27--help\x27.\n".toList := by
  constructor
  · rfl
  · rfl

/-! ## Declarations and the registry -/

theorem flagVar_free (formal : List (Str × Ptr)) (value : Ptr) (name : Str)
    (h : name.head? ≠ some '-' ∧ '=' ∉ name ∧ name ∉ formal.map Prod.fst) :
    flagVar formal value name = some (formal ++ [(name, value)]) := by
  obtain ⟨h1, h2, h3⟩ := h
  unfold flagVar
  rw [if_neg h1, if_neg h2, if_neg h3]

theorem flagVar_taken (formal : List (Str × Ptr)) (value : Ptr) (name : Str)
    (h : ¬ (name.head? ≠ some '-' ∧ '=' ∉ name ∧ name ∉ formal.map Prod.fst)) :
    flagVar formal value name = none := by
  unfold flagVar
  by_cases h1 : name.head? = some '-'
  · rw [if_pos h1]
  · rw [if_neg h1]
    by_cases h2 : '=' ∈ name
    · rw [if_pos h2]
    · rw [if_neg h2]
      by_cases h3 : name ∈ formal.map Prod.fst
      · rw [if_pos h3]
      · exact absurd ⟨h1, h2, h3⟩ h

theorem namesFree_iff (formal : List (Str × Ptr)) (value : Ptr) (shortName longName : Str) :
    namesFree formal shortName longName ↔
      (shortName.head? ≠ some '-' ∧ '=' ∉ shortName ∧ shortName ∉ formal.map Prod.fst) ∧
      (longName.head? ≠ some '-' ∧ '=' ∉ longName ∧
        longName ∉ (formal ++ [(shortName, value)]).map Prod.fst) := by
  unfold namesFree
  simp only [List.map_append, List.map_cons, List.map_nil, List.mem_append, List.mem_singleton,
    not_or]
  tauto

theorem StringOpt_returns (w : World) (s l d h : Str) (r : Bool)
    (hf : namesFree w.formal s l) :
    StringOpt w s l d h r =
      { world :=
          { argHelp := w.argHelp ++
              [{ ArgType := argString, ArgLen := len s + 2 * len l, ShortName := s,
                 LongName := l, HelpText := h, Required := r,
                 Value := Ptr.str w.heap.next }],
            formal := w.formal ++ [(s, Ptr.str w.heap.next), (l, Ptr.str w.heap.next)],
            heap := { (w.heap.setStr w.heap.next d) with next := w.heap.next + 1 } },
        handle := some (Ptr.str w.heap.next) } := by
  obtain ⟨h1, h2⟩ := (namesFree_iff w.formal (Ptr.str w.heap.next) s l).1 hf
  simp [StringOpt, flagVar_free _ _ _ h1, flagVar_free _ _ _ h2]

theorem StringOpt_panics (w : World) (s l d h : Str) (r : Bool)
    (hf : ¬ namesFree w.formal s l) :
    (StringOpt w s l d h r).handle = none ∧
    (StringOpt w s l d h r).world.argHelp = w.argHelp := by
  rw [namesFree_iff w.formal (Ptr.str w.heap.next) s l] at hf
  by_cases h1 : s.head? ≠ some '-' ∧ '=' ∉ s ∧ s ∉ w.formal.map Prod.fst
  · have h2 := flagVar_taken (w.formal ++ [(s, Ptr.str w.heap.next)]) (Ptr.str w.heap.next) l
      (fun h2 => hf ⟨h1, h2⟩)
    simp [StringOpt, flagVar_free _ _ _ h1, h2]
  · simp [StringOpt, flagVar_taken _ _ _ h1]

theorem IntOpt_returns (w : World) (s l : Str) (d : Int) (h : Str) (r : Bool)
    (hf : namesFree w.formal s l) :
    IntOpt w s l d h r =
      { world :=
          { argHelp := w.argHelp ++
              [{ ArgType := argInt, ArgLen := len s + 2 * len l, ShortName := s,
                 LongName := l, HelpText := h, Required := r,
                 Value := Ptr.int w.heap.next }],
            formal := w.formal ++ [(s, Ptr.int w.heap.next), (l, Ptr.int w.heap.next)],
            heap := { (w.heap.setInt w.heap.next d) with next := w.heap.next + 1 } },
        handle := some (Ptr.int w.heap.next) } := by
  obtain ⟨h1, h2⟩ := (namesFree_iff w.formal (Ptr.int w.heap.next) s l).1 hf
  simp [IntOpt, flagVar_free _ _ _ h1, flagVar_free _ _ _ h2]

theorem IntOpt_panics (w : World) (s l : Str) (d : Int) (h : Str) (r : Bool)
    (hf : ¬ namesFree w.formal s l) :
    (IntOpt w s l d h r).handle = none ∧
    (IntOpt w s l d h r).world.argHelp = w.argHelp := by
  rw [namesFree_iff w.formal (Ptr.int w.heap.next) s l] at hf
  by_cases h1 : s.head? ≠ some '-' ∧ '=' ∉ s ∧ s ∉ w.formal.map Prod.fst
  · have h2 := flagVar_taken (w.formal ++ [(s, Ptr.int w.heap.next)]) (Ptr.int w.heap.next) l
      (fun h2 => hf ⟨h1, h2⟩)
    simp [IntOpt, flagVar_free _ _ _ h1, h2]
  · simp [IntOpt, flagVar_taken _ _ _ h1]

theorem BoolOpt_returns (w : World) (s l : Str) (d : Bool) (h : Str) (r : Bool)
    (hf : namesFree w.formal s l) :
    BoolOpt w s l d h r =
      { world :=
          { argHelp := w.argHelp ++
              [{ ArgType := argBool, ArgLen := len s + len l, ShortName := s,
                 LongName := l, HelpText := h, Required := r,
                 Value := Ptr.bool w.heap.next }],
            formal := w.formal ++ [(s, Ptr.bool w.heap.next), (l, Ptr.bool w.heap.next)],
            heap := { (w.heap.setBool w.heap.next d) with next := w.heap.next + 1 } },
        handle := some (Ptr.bool w.heap.next) } := by
  obtain ⟨h1, h2⟩ := (namesFree_iff w.formal (Ptr.bool w.heap.next) s l).1 hf
  simp [BoolOpt, flagVar_free _ _ _ h1, flagVar_free _ _ _ h2]

theorem BoolOpt_panics (w : World) (s l : Str) (d : Bool) (h : Str) (r : Bool)
    (hf : ¬ namesFree w.formal s l) :
    (BoolOpt w s l d h r).handle = none ∧
    (BoolOpt w s l d h r).world.argHelp = w.argHelp := by
  rw [namesFree_iff w.formal (Ptr.bool w.heap.next) s l] at hf
  by_cases h1 : s.head? ≠ some '-' ∧ '=' ∉ s ∧ s ∉ w.formal.map Prod.fst
  · have h2 := flagVar_taken (w.formal ++ [(s, Ptr.bool w.heap.next)]) (Ptr.bool w.heap.next) l
      (fun h2 => hf ⟨h1, h2⟩)
    simp [BoolOpt, flagVar_free _ _ _ h1, h2]
  · simp [BoolOpt, flagVar_taken _ _ _ h1]

theorem StringOpt_next (w : World) (s l d h : Str) (r : Bool) :
    (StringOpt w s l d h r).world.heap.next = w.heap.next + 1 := by
  unfold StringOpt
  dsimp only
  split
  · rfl
  · split <;> rfl

theorem IntOpt_next (w : World) (s l : Str) (d : Int) (h : Str) (r : Bool) :
    (IntOpt w s l d h r).world.heap.next = w.heap.next + 1 := by
  unfold IntOpt
  dsimp only
  split
  · rfl
  · split <;> rfl

theorem BoolOpt_next (w : World) (s l : Str) (d : Bool) (h : Str) (r : Bool) :
    (BoolOpt w s l d h r).world.heap.next = w.heap.next + 1 := by
  unfold BoolOpt
  dsimp only
  split
  · rfl
  · split <;> rfl

theorem declare_next (w : World) (d : Decl) :
    (declare w d).world.heap.next = w.heap.next + 1 := by
  cases d
  · exact StringOpt_next _ _ _ _ _ _
  · exact IntOpt_next _ _ _ _ _ _
  · exact BoolOpt_next _ _ _ _ _ _

theorem declare_cases (w : World) (d : Decl) :
    ((declare w d).handle = some (d.descriptor w.heap.next).Value ∧
      (declare w d).world.argHelp = w.argHelp ++ [d.descriptor w.heap.next]) ∨
    ((declare w d).handle = none ∧ (declare w d).world.argHelp = w.argHelp) := by
  cases d with
  | string s l dv h r =>
    by_cases hf : namesFree w.formal s l
    · left
      simp [declare, StringOpt_returns w s l dv h r hf, Decl.descriptor]
    · exact Or.inr (StringOpt_panics w s l dv h r hf)
  | int s l dv h r =>
    by_cases hf : namesFree w.formal s l
    · left
      simp [declare, IntOpt_returns w s l dv h r hf, Decl.descriptor]
    · exact Or.inr (IntOpt_panics w s l dv h r hf)
  | bool s l dv h r =>
    by_cases hf : namesFree w.formal s l
    · left
      simp [declare, BoolOpt_returns w s l dv h r hf, Decl.descriptor]
    · exact Or.inr (BoolOpt_panics w s l dv h r hf)

theorem descriptor_addr (d : Decl) (n : Nat) : (d.descriptor n).Value.addr = n := by
  cases d <;> rfl

theorem declareAll_addr_lt (w : World) (ds : List Decl)
    (hw : ∀ a ∈ w.argHelp, a.Value.addr < w.heap.next) :
    ∀ a ∈ (declareAll w ds).argHelp, a.Value.addr < (declareAll w ds).heap.next := by
  induction ds generalizing w with
  | nil => exact hw
  | cons d ds ih =>
    apply ih (declare w d).world
    intro a ha
    rw [declare_next]
    rcases declare_cases w d with ⟨_, h⟩ | ⟨_, h⟩
    · rw [h] at ha
      rcases List.mem_append.1 ha with e | e
      · exact Nat.lt_succ_of_lt (hw a e)
      · rw [List.mem_singleton.1 e, descriptor_addr]
        exact Nat.lt_succ_self _
    · rw [h] at ha
      exact Nat.lt_succ_of_lt (hw a ha)

/-- Counterexample of C12: `String("v", "v", "", "verbosity", false)` at program
start appends no descriptor: the second `flag.StringVar` panics on the name
registered by the first, and the registry stays empty. -/
theorem C12_same_names_panic :
    (StringOpt World.init "v".toList "v".toList [] "verbosity".toList false).handle = none ∧
    (StringOpt World.init "v".toList "v".toList [] "verbosity".toList false).world.argHelp
      = [] ∧
    (StringOpt World.init "v".toList "v".toList [] "verbosity".toList false).world.formal
      = [("v".toList, Ptr.str 0)] := by
  refine ⟨by rfl, by rfl, by rfl⟩

/-- C12 as amended: when the `flag` package accepts both names (neither begins
with `-` or contains `=`, neither is registered yet, and the two differ),
`String` and `Int` append a descriptor of their kind with
`ArgLen = len(short) + 2*len(long)` and `Bool` one with
`ArgLen = len(short) + len(long)`; names, help text and required flag are the
arguments; `Value` is the pointer that is returned, which points to a newly
allocated cell holding the default, differs from the `Value` of every earlier
descriptor, and is the pointer bound to both names.  Otherwise the call panics
and appends nothing. -/
theorem C12_declared_descriptor (w : World) (shortName longName helpText : Str)
    (ds : Str) (di : Int) (db : Bool) (required : Bool) :
    (namesFree w.formal shortName longName →
      (∃ p, (StringOpt w shortName longName ds helpText required).handle = some p ∧
        p = Ptr.str w.heap.next ∧
        (StringOpt w shortName longName ds helpText required).world.argHelp = w.argHelp ++
          [{ ArgType := argString, ArgLen := len shortName + 2 * len longName,
             ShortName := shortName, LongName := longName, HelpText := helpText,
             Required := required, Value := p }] ∧
        (StringOpt w shortName longName ds helpText required).world.heap.strs p.addr = ds ∧
        (StringOpt w shortName longName ds helpText required).world.formal
          = w.formal ++ [(shortName, p), (longName, p)] ∧
        ∀ a ∈ w.argHelp, a.Value.addr < w.heap.next → a.Value ≠ p) ∧
      (∃ p, (IntOpt w shortName longName di helpText required).handle = some p ∧
        p = Ptr.int w.heap.next ∧
        (IntOpt w shortName longName di helpText required).world.argHelp = w.argHelp ++
          [{ ArgType := argInt, ArgLen := len shortName + 2 * len longName,
             ShortName := shortName, LongName := longName, HelpText := helpText,
             Required := required, Value := p }] ∧
        (IntOpt w shortName longName di helpText required).world.heap.ints p.addr = di ∧
        (IntOpt w shortName longName di helpText required).world.formal
          = w.formal ++ [(shortName, p), (longName, p)] ∧
        ∀ a ∈ w.argHelp, a.Value.addr < w.heap.next → a.Value ≠ p) ∧
      (∃ p, (BoolOpt w shortName longName db helpText required).handle = some p ∧
        p = Ptr.bool w.heap.next ∧
        (BoolOpt w shortName longName db helpText required).world.argHelp = w.argHelp ++
          [{ ArgType := argBool, ArgLen := len shortName + len longName,
             ShortName := shortName, LongName := longName, HelpText := helpText,
             Required := required, Value := p }] ∧
        (BoolOpt w shortName longName db helpText required).world.heap.bools p.addr = db ∧
        (BoolOpt w shortName longName db helpText required).world.formal
          = w.formal ++ [(shortName, p), (longName, p)] ∧
        ∀ a ∈ w.argHelp, a.Value.addr < w.heap.next → a.Value ≠ p)) ∧
    (¬ namesFree w.formal shortName longName →
      ((StringOpt w shortName longName ds helpText required).handle = none ∧
        (StringOpt w shortName longName ds helpText required).world.argHelp = w.argHelp) ∧
      ((IntOpt w shortName longName di helpText required).handle = none ∧
        (IntOpt w shortName longName di helpText required).world.argHelp = w.argHelp) ∧
      ((BoolOpt w shortName longName db helpText required).handle = none ∧
        (BoolOpt w shortName longName db helpText required).world.argHelp = w.argHelp)) := by
  constructor
  · intro hf
    refine ⟨⟨Ptr.str w.heap.next, ?_⟩, ⟨Ptr.int w.heap.next, ?_⟩, ⟨Ptr.bool w.heap.next, ?_⟩⟩
    · rw [StringOpt_returns w _ _ _ _ _ hf]
      refine ⟨rfl, rfl, rfl, by simp [Heap.setStr, Ptr.addr], rfl, fun a _ hlt he => ?_⟩
      rw [he] at hlt
      exact absurd hlt (Nat.lt_irrefl _)
    · rw [IntOpt_returns w _ _ _ _ _ hf]
      refine ⟨rfl, rfl, rfl, by simp [Heap.setInt, Ptr.addr], rfl, fun a _ hlt he => ?_⟩
      rw [he] at hlt
      exact absurd hlt (Nat.lt_irrefl _)
    · rw [BoolOpt_returns w _ _ _ _ _ hf]
      refine ⟨rfl, rfl, rfl, by simp [Heap.setBool, Ptr.addr], rfl, fun a _ hlt he => ?_⟩
      rw [he] at hlt
      exact absurd hlt (Nat.lt_irrefl _)
  · intro hf
    exact ⟨StringOpt_panics w _ _ _ _ _ hf, IntOpt_panics w _ _ _ _ _ hf,
      BoolOpt_panics w _ _ _ _ _ hf⟩

theorem namesFree_o_output : namesFree World.init.formal "o".toList "output".toList := by
  unfold namesFree
  decide

/-- Witness of C12: at program start the names `o` and `output` are free, and
`String("o", "output", "", "output path", true)` returns the pointer to cell 0
and appends the descriptor bound to it. -/
theorem C12_declared_descriptor_witness :
    namesFree World.init.formal "o".toList "output".toList ∧
    ∃ p, (StringOpt World.init "o".toList "output".toList [] "output path".toList true).handle
        = some p ∧
      p = Ptr.str 0 ∧
      (StringOpt World.init "o".toList "output".toList [] "output path".toList true).world.argHelp
        = [] ++
          [{ ArgType := argString, ArgLen := len "o".toList + 2 * len "output".toList,
             ShortName := "o".toList, LongName := "output".toList,
             HelpText := "output path".toList, Required := true, Value := p }] ∧
      (StringOpt World.init "o".toList "output".toList [] "output path".toList true).world.heap.strs
        p.addr = [] ∧
      (StringOpt World.init "o".toList "output".toList [] "output path".toList true).world.formal
        = [] ++ [("o".toList, p), ("output".toList, p)] ∧
      ∀ a ∈ World.init.argHelp, a.Value.addr < World.init.heap.next → a.Value ≠ p :=
  ⟨namesFree_o_output,
   ((C12_declared_descriptor World.init "o".toList "output".toList "output path".toList
      [] 0 false true).1 namesFree_o_output).1⟩

theorem descriptorsFrom_getElem (n : Nat) (ds : List Decl) (i : Nat) :
    (descriptorsFrom n ds)[i]? = ds[i]?.map (Decl.descriptor (n + i)) := by
  induction ds generalizing n i with
  | nil => simp [descriptorsFrom]
  | cons d ds ih =>
    cases i with
    | zero => simp [descriptorsFrom]
    | succ i =>
      simp only [descriptorsFrom, List.getElem?_cons_succ]
      rw [ih]
      have e : n + 1 + i = n + (i + 1) := by omega
      rw [e]

theorem declareAll_allReturn (w : World) (ds : List Decl) (h : allReturn w ds = true) :
    (declareAll w ds).argHelp = w.argHelp ++ descriptorsFrom w.heap.next ds := by
  induction ds generalizing w with
  | nil => simp [declareAll, descriptorsFrom]
  | cons d ds ih =>
    simp only [allReturn, Bool.and_eq_true] at h
    obtain ⟨h1, h2⟩ := h
    simp only [declareAll, descriptorsFrom]
    rw [ih _ h2, declare_next]
    rcases declare_cases w d with ⟨_, hc⟩ | ⟨hn, _⟩
    · rw [hc]
      simp
    · rw [hn] at h1
      simp at h1

/-- Counterexample of C13: after `String("o", "output", "", "output path",
true)` the call `Bool("o", "overwrite", false, "overwrite the output", false)`
reuses the name `o`: `flag.BoolVar` panics and the registry keeps its one
descriptor, none is appended. -/
theorem C13_reused_name_appends_nothing :
    (BoolOpt (StringOpt World.init "o".toList "output".toList [] "output path".toList true).world
      "o".toList "overwrite".toList false "overwrite the output".toList false).handle = none ∧
    (BoolOpt (StringOpt World.init "o".toList "output".toList [] "output path".toList true).world
      "o".toList "overwrite".toList false "overwrite the output".toList false).world.argHelp
      = [{ ArgType := argString, ArgLen := 13, ShortName := "o".toList,
           LongName := "output".toList, HelpText := "output path".toList,
           Required := true, Value := Ptr.str 0 }] ∧
    (StringOpt World.init "o".toList "output".toList [] "output path".toList true).world.argHelp
      = [{ ArgType := argString, ArgLen := 13, ShortName := "o".toList,
           LongName := "output".toList, HelpText := "output path".toList,
           Required := true, Value := Ptr.str 0 }] := by
  refine ⟨by rfl, by rfl, by rfl⟩

/-- C13 as amended: a call of `String`, `Int` or `Bool` that returns leaves the
registry as it was and appends exactly one descriptor at its end, the one it
creates; a call that panics in the `flag` package leaves the registry as it
was; after a sequence of declarations that all return, the registry is the old
one followed by their descriptors in order, so from program start the i-th
descriptor is the one created by the i-th declaration; the validation of
`Parse`, `errorHelp`, `usageHeader`, `argumentHelp.String` and the help
callback leave the state, and with it the registry, unchanged. -/
theorem C13_registry_order (ext : Str → List Str → Str) (upper : Char → Char) (w : World)
    (d : Decl) (decls : List Decl) (i : Nat) (prog : Str) (isTerminal : Bool)
    (a : argumentHelp) (maxLen : Int) :
    ((declare w d).handle ≠ none →
      (declare w d).world.argHelp = w.argHelp ++ [d.descriptor w.heap.next]) ∧
    ((declare w d).handle = none → (declare w d).world.argHelp = w.argHelp) ∧
    (allReturn w decls = true →
      (declareAll w decls).argHelp = w.argHelp ++ descriptorsFrom w.heap.next decls) ∧
    (allReturn World.init decls = true →
      (declareAll World.init decls).argHelp.length = decls.length ∧
      (declareAll World.init decls).argHelp[i]? = decls[i]?.map (Decl.descriptor i)) ∧
    (Parse ext upper w prog isTerminal).world = w ∧
    (readOnlyCall (fun r => errorHelp ext upper r prog isTerminal) w).2 = w ∧
    (readOnlyCall (fun r => usageHeader ext upper r prog isTerminal) w).2 = w ∧
    (readOnlyCall (fun _ => a.String ext upper isTerminal maxLen) w).2 = w ∧
    (readOnlyCall (fun r => Usage ext upper r prog isTerminal) w).2 = w := by
  refine ⟨fun h => ?_, fun h => ?_, declareAll_allReturn w decls, fun h => ?_,
    parseLoop_world ext upper w prog isTerminal w.argHelp, rfl, rfl, rfl, rfl⟩
  · rcases declare_cases w d with ⟨_, hc⟩ | ⟨hn, _⟩
    · exact hc
    · exact absurd hn h
  · rcases declare_cases w d with ⟨hs, _⟩ | ⟨_, hc⟩
    · rw [hs] at h
      simp at h
    · exact hc
  · have hl := declareAll_allReturn World.init decls h
    have hlen : ∀ (n : Nat) (l : List Decl), (descriptorsFrom n l).length = l.length := by
      intro n l
      induction l generalizing n with
      | nil => rfl
      | cons x xs ih => simp [descriptorsFrom, ih]
    rw [hl]
    refine ⟨by simp [World.init, hlen], ?_⟩
    have h0 : World.init.argHelp ++ descriptorsFrom World.init.heap.next decls
        = descriptorsFrom 0 decls := by
      simp [World.init]
    rw [h0, descriptorsFrom_getElem]
    simp

/-- Witness of C13: `Bool("v", "verbose", ...)` followed by `String("o",
"output", ...)` from program start both return, and the descriptor at index 1
is the one of the second declaration, bound to cell 1. -/
theorem C13_registry_order_witness :
    allReturn World.init
      [Decl.bool "v".toList "verbose".toList false "verbose output".toList false,
       Decl.string "o".toList "output".toList [] "output path".toList true] = true ∧
    (declareAll World.init
      [Decl.bool "v".toList "verbose".toList false "verbose output".toList false,
       Decl.string "o".toList "output".toList [] "output path".toList true]).argHelp.length
      = [Decl.bool "v".toList "verbose".toList false "verbose output".toList false,
         Decl.string "o".toList "output".toList [] "output path".toList true].length ∧
    (declareAll World.init
      [Decl.bool "v".toList "verbose".toList false "verbose output".toList false,
       Decl.string "o".toList "output".toList [] "output path".toList true]).argHelp[1]?
      = [Decl.bool "v".toList "verbose".toList false "verbose output".toList false,
         Decl.string "o".toList "output".toList [] "output path".toList true][1]?.map
          (Decl.descriptor 1) :=
  ⟨by rfl,
   (C13_registry_order noExt exampleUpper World.init
      (Decl.bool "v".toList "verbose".toList false "verbose output".toList false)
      [Decl.bool "v".toList "verbose".toList false "verbose output".toList false,
       Decl.string "o".toList "output".toList [] "output path".toList true]
      1 "prog".toList false
      { ArgType := argBool, ArgLen := 8, ShortName := "v".toList,
        LongName := "verbose".toList, HelpText := "verbose output".toList,
        Required := false, Value := Ptr.bool 0 } 8).2.2.2.1 (by rfl)⟩

/-! ## The largest width and the padding -/

theorem maxLength_foldl_ge (l : List argumentHelp) (m : Int) :
    m ≤ l.foldl (fun m a => if a.ArgLen > m then a.ArgLen else m) m ∧
    ∀ a ∈ l, a.ArgLen ≤ l.foldl (fun m a => if a.ArgLen > m then a.ArgLen else m) m := by
  induction l generalizing m with
  | nil => simp
  | cons b rest ih =>
    obtain ⟨h1, h2⟩ := ih (if b.ArgLen > m then b.ArgLen else m)
    simp only [List.foldl_cons]
    refine ⟨?_, fun a ha => ?_⟩
    · refine le_trans ?_ h1
      split <;> omega
    · rcases List.mem_cons.1 ha with e | e
      · subst e
        refine le_trans ?_ h1
        split <;> omega
      · exact h2 a e

theorem maxLength_foldl_attained (l : List argumentHelp) (m : Int) :
    l.foldl (fun m a => if a.ArgLen > m then a.ArgLen else m) m = m ∨
    ∃ a ∈ l, l.foldl (fun m a => if a.ArgLen > m then a.ArgLen else m) m = a.ArgLen := by
  induction l generalizing m with
  | nil => simp
  | cons b rest ih =>
    simp only [List.foldl_cons]
    rcases ih (if b.ArgLen > m then b.ArgLen else m) with h | ⟨a, ha, h⟩
    · by_cases hb : b.ArgLen > m
      · right
        refine ⟨b, List.mem_cons_self _ _, ?_⟩
        rw [h, if_pos hb]
      · left
        rw [h, if_neg hb]
    · exact Or.inr ⟨a, List.mem_cons_of_mem _ ha, h⟩

theorem maxLength_ge (argHelp : List argumentHelp) (a : argumentHelp) (ha : a ∈ argHelp) :
    a.ArgLen ≤ maxLength argHelp :=
  (maxLength_foldl_ge argHelp 0).2 a ha

theorem maxLength_attained (argHelp : List argumentHelp) (hne : argHelp ≠ [])
    (hpos : ∀ a ∈ argHelp, 0 ≤ a.ArgLen) :
    ∃ a ∈ argHelp, maxLength argHelp = a.ArgLen := by
  rcases maxLength_foldl_attained argHelp 0 with h | h
  · obtain ⟨b, rest, rfl⟩ := List.exists_cons_of_ne_nil hne
    refine ⟨b, List.mem_cons_self _ _, ?_⟩
    have h1 := maxLength_ge (b :: rest) b (List.mem_cons_self _ _)
    have h2 := hpos b (List.mem_cons_self _ _)
    have h3 : maxLength (b :: rest) = 0 := h
    omega
  · exact h


theorem descriptor_width (d : Decl) (n : Nat) :
    (((d.descriptor n).ArgType = argString ∨ (d.descriptor n).ArgType = argInt) ∧
      (d.descriptor n).ArgLen
        = len (d.descriptor n).ShortName + 2 * len (d.descriptor n).LongName) ∨
    ((d.descriptor n).ArgType = argBool ∧
      (d.descriptor n).ArgLen
        = len (d.descriptor n).ShortName + len (d.descriptor n).LongName) := by
  cases d
  · exact Or.inl ⟨Or.inl rfl, rfl⟩
  · exact Or.inl ⟨Or.inr rfl, rfl⟩
  · exact Or.inr ⟨rfl, rfl⟩

theorem declareAll_mem (w : World) (ds : List Decl) (a : argumentHelp)
    (ha : a ∈ (declareAll w ds).argHelp) :
    a ∈ w.argHelp ∨ ∃ d n, a = Decl.descriptor n d := by
  induction ds generalizing w with
  | nil => exact Or.inl ha
  | cons d ds ih =>
    rcases ih (declare w d).world ha with h | h
    · rcases declare_cases w d with ⟨_, hc⟩ | ⟨_, hc⟩
      · rw [hc] at h
        rcases List.mem_append.1 h with e | e
        · exact Or.inl e
        · exact Or.inr ⟨d, w.heap.next, List.mem_singleton.1 e⟩
      · rw [hc] at h
        exact Or.inl h
    · exact Or.inr h

/-- C14: the `maxLength` of the help callback is 0 for the empty registry; for
the registry after any sequence of declarations from program start it is at
least the `ArgLen` of every descriptor and, when there is a descriptor, equal
to the `ArgLen` of one of them, where `ArgLen` is `len(short) + 2*len(long)`
for String and Integer options and `len(short) + len(long)` for Boolean
options. -/
theorem C14_maxLength (decls : List Decl) :
    maxLength [] = 0 ∧
    (∀ a ∈ (declareAll World.init decls).argHelp,
      a.ArgLen ≤ maxLength (declareAll World.init decls).argHelp) ∧
    ((declareAll World.init decls).argHelp ≠ [] →
      ∃ a ∈ (declareAll World.init decls).argHelp,
        maxLength (declareAll World.init decls).argHelp = a.ArgLen) ∧
    (∀ a ∈ (declareAll World.init decls).argHelp,
      ((a.ArgType = argString ∨ a.ArgType = argInt) ∧
        a.ArgLen = len a.ShortName + 2 * len a.LongName) ∨
      (a.ArgType = argBool ∧ a.ArgLen = len a.ShortName + len a.LongName)) := by
  have hw : ∀ a ∈ (declareAll World.init decls).argHelp,
      ((a.ArgType = argString ∨ a.ArgType = argInt) ∧
        a.ArgLen = len a.ShortName + 2 * len a.LongName) ∨
      (a.ArgType = argBool ∧ a.ArgLen = len a.ShortName + len a.LongName) := by
    intro a ha
    rcases declareAll_mem World.init decls a ha with h | ⟨d, n, rfl⟩
    · simp [World.init] at h
    · exact descriptor_width d n
  refine ⟨rfl, fun a ha => maxLength_ge _ a ha, fun hne => ?_, hw⟩
  apply maxLength_attained _ hne
  intro a ha
  rcases hw a ha with ⟨_, h⟩ | ⟨_, h⟩ <;> rw [h] <;> omega

/-- Witness of C14: after `Bool("v", "verbose", ...)` and `String("o",
"output", ...)` the registry is not empty, the widths are 8 and 13 and
`maxLength` is 13, the width of the String option. -/
theorem C14_maxLength_witness :
    (declareAll World.init
      [Decl.bool "v".toList "verbose".toList false "verbose output".toList false,
       Decl.string "o".toList "output".toList [] "output path".toList true]).argHelp ≠ [] ∧
    (∃ a ∈ (declareAll World.init
        [Decl.bool "v".toList "verbose".toList false "verbose output".toList false,
         Decl.string "o".toList "output".toList [] "output path".toList true]).argHelp,
      maxLength (declareAll World.init
        [Decl.bool "v".toList "verbose".toList false "verbose output".toList false,
         Decl.string "o".toList "output".toList [] "output path".toList true]).argHelp
        = a.ArgLen) ∧
    maxLength (declareAll World.init
        [Decl.bool "v".toList "verbose".toList false "verbose output".toList false,
         Decl.string "o".toList "output".toList [] "output path".toList true]).argHelp = 13 :=
  ⟨by decide,
   (C14_maxLength
      [Decl.bool "v".toList "verbose".toList false "verbose output".toList false,
       Decl.string "o".toList "output".toList [] "output path".toList true]).2.2.1 (by decide),
   by decide⟩

theorem Repeat_eq_none (n : Int) : Repeat n = none ↔ n < 0 := by
  unfold Repeat
  split <;> simp [*]

theorem terminalFmt_eq_none (ext : Str → List Str → Str) (a : argumentHelp) (maxLen : Int) :
    terminalFmt ext a maxLen = none ↔
      ((a.ArgType = argString ∨ a.ArgType = argInt) ∧ maxLen - a.ArgLen + 4 < 0) ∨
      (a.ArgType = argBool ∧ maxLen - a.ArgLen + 7 < 0) := by
  unfold terminalFmt
  by_cases hv : a.ArgType = argString ∨ a.ArgType = argInt
  · have hb : a.ArgType ≠ argBool := by
      rcases hv with h | h <;> rw [h] <;> decide
    simp [hv, hb, Repeat_eq_none]
  · by_cases hb : a.ArgType = argBool
    · have hn : ¬ (argBool = argString ∨ argBool = argInt) := by decide
      rw [if_neg hv, if_pos hb]
      simp [hb, hn, Repeat_eq_none]
    · simp [hv, hb]

theorem nonTerminalFmt_eq_none (ext : Str → List Str → Str) (a : argumentHelp) (maxLen : Int) :
    nonTerminalFmt ext a maxLen = none ↔
      ((a.ArgType = argString ∨ a.ArgType = argInt) ∧ maxLen - a.ArgLen + 4 < 0) ∨
      (a.ArgType = argBool ∧ maxLen - a.ArgLen + 7 < 0) := by
  unfold nonTerminalFmt
  by_cases hv : a.ArgType = argString ∨ a.ArgType = argInt
  · have hb : a.ArgType ≠ argBool := by
      rcases hv with h | h <;> rw [h] <;> decide
    simp [hv, hb, Repeat_eq_none]
  · by_cases hb : a.ArgType = argBool
    · have hn : ¬ (argBool = argString ∨ argBool = argInt) := by decide
      rw [if_neg hv, if_pos hb]
      simp [hb, hn, Repeat_eq_none]
    · simp [hv, hb]

theorem String_eq_none (ext : Str → List Str → Str) (upper : Char → Char) (a : argumentHelp)
    (isTerminal : Bool) (maxLen : Int) :
    a.String ext upper isTerminal maxLen = none ↔
      ((a.ArgType = argString ∨ a.ArgType = argInt) ∧ maxLen - a.ArgLen + 4 < 0) ∨
      (a.ArgType = argBool ∧ maxLen - a.ArgLen + 7 < 0) := by
  unfold argumentHelp.String
  rw [Option.map_eq_none']
  cases isTerminal
  · simpa using nonTerminalFmt_eq_none ext a maxLen
  · simpa using terminalFmt_eq_none ext a maxLen

theorem String_isSome_of_le (ext : Str → List Str → Str) (upper : Char → Char)
    (a : argumentHelp) (isTerminal : Bool) (maxLen : Int) (h : a.ArgLen ≤ maxLen) :
    (a.String ext upper isTerminal maxLen).isSome = true := by
  rw [Option.isSome_iff_ne_none]
  intro hn
  rcases (String_eq_none ext upper a isTerminal maxLen).1 hn with ⟨_, h4⟩ | ⟨_, h7⟩ <;> omega

theorem usageLines_isSome (ext : Str → List Str → Str) (upper : Char → Char)
    (isTerminal : Bool) (maxLen : Int)
    (l : List argumentHelp) (h : ∀ a ∈ l, a.ArgLen ≤ maxLen) :
    (usageLines ext upper isTerminal maxLen l).isSome = true := by
  induction l with
  | nil => rfl
  | cons a rest ih =>
    have ha := String_isSome_of_le ext upper a isTerminal maxLen (h a (List.mem_cons_self _ _))
    obtain ⟨line, hl⟩ := Option.isSome_iff_exists.1 ha
    have hr := ih (fun b hb => h b (List.mem_cons_of_mem _ hb))
    obtain ⟨out, ho⟩ := Option.isSome_iff_exists.1 hr
    simp [usageLines, hl, ho]

/-- C15: `argumentHelp.String` fails exactly when `maxLen - ArgLen + 4 < 0` for
a String or Integer descriptor or `maxLen - ArgLen + 7 < 0` for a Boolean one;
with `maxLen` the `maxLength` of the help callback the repeat counts are at
least 4 and at least 7 for every descriptor of the registry, every option line
is rendered, and the callback does not fail. -/
theorem C15_padding_nonnegative (ext : Str → List Str → Str) (upper : Char → Char)
    (a : argumentHelp) (isTerminal : Bool) (maxLen : Int) (argHelp : List argumentHelp)
    (prog : Str) :
    (a.String ext upper isTerminal maxLen = none ↔
      ((a.ArgType = argString ∨ a.ArgType = argInt) ∧ maxLen - a.ArgLen + 4 < 0) ∨
      (a.ArgType = argBool ∧ maxLen - a.ArgLen + 7 < 0)) ∧
    (∀ b ∈ argHelp,
      4 ≤ maxLength argHelp - b.ArgLen + 4 ∧ 7 ≤ maxLength argHelp - b.ArgLen + 7 ∧
      (b.String ext upper isTerminal (maxLength argHelp)).isSome = true) ∧
    (Usage ext upper argHelp prog isTerminal).isSome = true := by
  refine ⟨String_eq_none ext upper a isTerminal maxLen, fun b hb => ?_, ?_⟩
  · have h := maxLength_ge argHelp b hb
    exact ⟨by omega, by omega, String_isSome_of_le ext upper b isTerminal _ h⟩
  · have h := usageLines_isSome ext upper isTerminal (maxLength argHelp) argHelp
      (fun b hb => maxLength_ge argHelp b hb)
    obtain ⟨out, ho⟩ := Option.isSome_iff_exists.1 h
    simp [Usage, ho]

/-- Witness of C15: the String option `-o`, `--output` (ArgLen 13) fails to
render at `maxLen = 8`, where the repeat count is -1, and renders at the
`maxLength` 13 of the registry that holds it. -/
theorem C15_padding_nonnegative_witness :
    ((8 : Int) - 13 + 4 < 0) ∧
    argumentHelp.String noExt exampleUpper
      { ArgType := argString, ArgLen := 13, ShortName := "o".toList,
        LongName := "output".toList, HelpText := "output path".toList,
        Required := true, Value := Ptr.str 1 } false 8 = none ∧
    (∀ b ∈ worldVerboseOutput.argHelp,
      4 ≤ maxLength worldVerboseOutput.argHelp - b.ArgLen + 4 ∧
      7 ≤ maxLength worldVerboseOutput.argHelp - b.ArgLen + 7 ∧
      (b.String noExt exampleUpper false (maxLength worldVerboseOutput.argHelp)).isSome = true) :=
  ⟨by decide,
   (C15_padding_nonnegative noExt exampleUpper
      { ArgType := argString, ArgLen := 13, ShortName := "o".toList,
        LongName := "output".toList, HelpText := "output path".toList,
        Required := true, Value := Ptr.str 1 } false 8
      worldVerboseOutput.argHelp "prog".toList).1.2 (Or.inl ⟨Or.inl rfl, by decide⟩),
   (C15_padding_nonnegative noExt exampleUpper
      { ArgType := argString, ArgLen := 13, ShortName := "o".toList,
        LongName := "output".toList, HelpText := "output path".toList,
        Required := true, Value := Ptr.str 1 } false 8
      worldVerboseOutput.argHelp "prog".toList).2.1⟩


end Clap
